import Mathlib

/-!
Shallow embedding of the CHIP-8 interpreter core (`src/chip8.rs`) and proofs
about its instruction semantics, timing controller and construction state.

Modelling conventions:
* Machine integers (`u8`, `u16`) are `Nat` with explicit `% 256` / `% 65536`
  at the points where the Rust code performs wrapping machine arithmetic
  (release-profile semantics: integer overflow wraps).
* Rust array indexing panics on an out-of-bounds index; those panics are
  modelled as `Except.error (EmuError.outOfBounds addr)`.  Likewise the
  `stack.pop().unwrap()` panic on an empty stack is
  `EmuError.stackUnderflow`.  A panic aborts the emulation thread, so an
  `Except.error` result short-circuits the whole cycle burst.
* `memory` and `var_registers` are total functions `Nat → Nat`; every access
  the Rust code performs on `memory` is bounds-checked through
  `memRead`/`memWrite`.  Register indices reaching `var_registers` are 4-bit
  fields extracted with `&&& 0xF` (hence `< 16`), mirroring the decoder.
* The RGBA pixel buffer stores one pixel per 4 bytes; the interpreter reads
  only `frame[idx*4] != 0` and writes all three colour channels to `0x00` or
  `0xFF` together, so a pixel is modelled as one `Bool` at the un-multiplied
  index `frame_x + frame_y * 64` (`true` iff the red channel is nonzero).
* `pressed_keys` is a Rust `HashSet<u16>`; it is modelled as a duplicate-free
  list whose order stands for the set's unspecified iteration order, so
  `iter().next()` becomes `List.head?`.
* The random byte source of `CXNN` (`rng.random::<u16>()`) is modelled as an
  explicit `rand` argument threaded into `decode_and_execute`, and a stream
  `rands : Nat → Nat` for a burst of cycles.
-/

/-- Display width in pixels (`DISPLAY_WIDTH`). -/
abbrev DISPLAY_WIDTH : Nat := 64

/-- Display height in pixels (`DISPLAY_HEIGHT`). -/
abbrev DISPLAY_HEIGHT : Nat := 32

/-- Size of the emulator RAM in bytes (`RAM_SIZE`). -/
abbrev RAM_SIZE : Nat := 4096

/-- Program-start address (`PC_START`). -/
abbrev PC_START : Nat := 512

/-- Base address of the builtin font (`FONT_PC`). -/
abbrev FONT_PC : Nat := 0x50

/-- Errors of the embedded interpreter: the Rust panics that can abort the
emulation thread. -/
inductive EmuError where
  | outOfBounds (addr : Nat)
  | stackUnderflow
  deriving DecidableEq, Repr

/-- Pointwise update of a total function, used for register and memory
writes. -/
def updateFn (f : Nat → Nat) (i v : Nat) : Nat → Nat :=
  fun j => if j = i then v else f j

/-- Bounds-checked RAM read: `self.memory[addr]` panics when
`addr >= RAM_SIZE`. -/
def memRead (mem : Nat → Nat) (addr : Nat) : Except EmuError Nat :=
  if addr < RAM_SIZE then .ok (mem addr) else .error (.outOfBounds addr)

/-- Bounds-checked RAM write: `self.memory[addr] = v` panics when
`addr >= RAM_SIZE`. -/
def memWrite (mem : Nat → Nat) (addr v : Nat) : Except EmuError (Nat → Nat) :=
  if addr < RAM_SIZE then .ok (updateFn mem addr v) else .error (.outOfBounds addr)

/-- The interpreter state (`struct Emulator`), restricted to the fields the
core state machine reads or writes.  The window/audio collaborators are
abstracted: the pixel buffer to `frame`, the audio sink to the two booleans
that the code drives. -/
structure Emulator where
  cycle_rate : Nat
  memory : Nat → Nat
  pc : Nat
  stack : List Nat
  index_register : Nat
  var_registers : Nat → Nat
  delay_timer : Nat
  sound_timer : Nat
  op_shift_original : Bool
  op_jump_with_offset_original : Bool
  op_store_and_load_original : Bool
  pressed_keys : List Nat
  frame : Nat → Bool
  should_draw : Bool
  audio_playing : Bool
  audio_sink_initialized : Bool

namespace Emulator

/-- Clear screen (`exec_00e0`): every pixel to black, request a redraw. -/
def exec_00e0 (s : Emulator) : Emulator :=
  { s with frame := fun _ => false, should_draw := true }

/-- Return from subroutine (`exec_00ee`): `self.pc = self.stack.pop().unwrap()`.
The Rust `Vec` push/pop pair is modelled with the list head as the top of the
stack; popping an empty stack panics. -/
def exec_00ee (s : Emulator) : Except EmuError Emulator :=
  match s.stack with
  | [] => .error .stackUnderflow
  | a :: rest => .ok { s with pc := a, stack := rest }

/-- Jump (`exec_1nnn`). -/
def exec_1nnn (s : Emulator) (nnn : Nat) : Emulator :=
  { s with pc := nnn }

/-- Call subroutine (`exec_2nnn`): push the current pc, then jump. -/
def exec_2nnn (s : Emulator) (nnn : Nat) : Emulator :=
  { s with stack := s.pc :: s.stack, pc := nnn }

/-- Skip if `vx == nn` (`exec_3xnn`). -/
def exec_3xnn (s : Emulator) (x nn : Nat) : Emulator :=
  if s.var_registers x = nn then { s with pc := (s.pc + 2) % 65536 } else s

/-- Skip if `vx != nn` (`exec_4xnn`). -/
def exec_4xnn (s : Emulator) (x nn : Nat) : Emulator :=
  if s.var_registers x ≠ nn then { s with pc := (s.pc + 2) % 65536 } else s

/-- Skip if `vx == vy` (`exec_5xy0`). -/
def exec_5xy0 (s : Emulator) (x y : Nat) : Emulator :=
  if s.var_registers x = s.var_registers y then { s with pc := (s.pc + 2) % 65536 } else s

/-- Set register (`exec_6xnn`): `vx = nn as u8`. -/
def exec_6xnn (s : Emulator) (x nn : Nat) : Emulator :=
  { s with var_registers := updateFn s.var_registers x (nn % 256) }

/-- Add immediate (`exec_7xnn`): `vx = vx.wrapping_add(nn as u8)`. -/
def exec_7xnn (s : Emulator) (x nn : Nat) : Emulator :=
  { s with var_registers :=
      updateFn s.var_registers x ((s.var_registers x + nn % 256) % 256) }

/-- Copy register (`exec_8xy0`). -/
def exec_8xy0 (s : Emulator) (x y : Nat) : Emulator :=
  { s with var_registers := updateFn s.var_registers x (s.var_registers y) }

/-- Bitwise OR (`exec_8xy1`). -/
def exec_8xy1 (s : Emulator) (x y : Nat) : Emulator :=
  { s with var_registers :=
      updateFn s.var_registers x (s.var_registers x ||| s.var_registers y) }

/-- Bitwise AND (`exec_8xy2`). -/
def exec_8xy2 (s : Emulator) (x y : Nat) : Emulator :=
  { s with var_registers :=
      updateFn s.var_registers x (s.var_registers x &&& s.var_registers y) }

/-- Bitwise XOR (`exec_8xy3`). -/
def exec_8xy3 (s : Emulator) (x y : Nat) : Emulator :=
  { s with var_registers :=
      updateFn s.var_registers x (s.var_registers x ^^^ s.var_registers y) }

/-- Add registers (`exec_8xy4`): `let (result, overflow) = vx.overflowing_add(vy)`;
store the wrapped sum in `vx`, then write the carry flag into `VF` (the flag
write happens after the result write, so for `x = 0xF` the flag wins). -/
def exec_8xy4 (s : Emulator) (x y : Nat) : Emulator :=
  let vx := s.var_registers x
  let vy := s.var_registers y
  let result := (vx + vy) % 256
  let overflow := decide (256 ≤ vx + vy)
  let regs := updateFn s.var_registers x result
  { s with var_registers := updateFn regs 0xF (if overflow then 1 else 0) }

/-- Subtract registers (`exec_8xy5`): `vx.overflowing_sub(vy)`; the borrow flag
(1 when no borrow) is written to `VF` after the result. -/
def exec_8xy5 (s : Emulator) (x y : Nat) : Emulator :=
  let vx := s.var_registers x
  let vy := s.var_registers y
  let result := (vx + 256 - vy % 256) % 256
  let overflow := decide (vx < vy)
  let regs := updateFn s.var_registers x result
  { s with var_registers := updateFn regs 0xF (if overflow then 0 else 1) }

/-- Shift right (`exec_8xy6`): shift source is `vy` under the original-shift
quirk, otherwise `vx`; `VF` receives the shifted-out bit 0 last. -/
def exec_8xy6 (s : Emulator) (x y : Nat) : Emulator :=
  let val := if s.op_shift_original then s.var_registers y else s.var_registers x
  let new_val := val >>> 1
  let regs := updateFn s.var_registers x new_val
  { s with var_registers := updateFn regs 0xF (val &&& 1) }

/-- Reverse subtract (`exec_8xy7`): `vy.overflowing_sub(vx)` stored in `vx`;
borrow flag written to `VF` after the result. -/
def exec_8xy7 (s : Emulator) (x y : Nat) : Emulator :=
  let vx := s.var_registers x
  let vy := s.var_registers y
  let result := (vy + 256 - vx % 256) % 256
  let overflow := decide (vy < vx)
  let regs := updateFn s.var_registers x result
  { s with var_registers := updateFn regs 0xF (if overflow then 0 else 1) }

/-- Shift left (`exec_8xye`): shift source as in `exec_8xy6`; `VF` receives the
shifted-out bit 7 last.  The `u8` shift wraps at 8 bits. -/
def exec_8xye (s : Emulator) (x y : Nat) : Emulator :=
  let val := if s.op_shift_original then s.var_registers y else s.var_registers x
  let new_val := (val <<< 1) % 256
  let regs := updateFn s.var_registers x new_val
  { s with var_registers := updateFn regs 0xF ((val &&& 0b10000000) >>> 7) }

/-- Skip if `vx != vy` (`exec_9xy0`). -/
def exec_9xy0 (s : Emulator) (x y : Nat) : Emulator :=
  if s.var_registers x ≠ s.var_registers y then { s with pc := (s.pc + 2) % 65536 } else s

/-- Set index register (`exec_annn`). -/
def exec_annn (s : Emulator) (nnn : Nat) : Emulator :=
  { s with index_register := nnn }

/-- Jump with offset (`exec_bnnn`): offset register is `v0` under the original
quirk, else `vx`; the 16-bit add wraps. -/
def exec_bnnn (s : Emulator) (x nnn : Nat) : Emulator :=
  let val := if s.op_jump_with_offset_original then s.var_registers 0 else s.var_registers x
  { s with pc := (val + nnn) % 65536 }

/-- Random AND immediate (`exec_cxnn`): the random `u16` draw is the explicit
`rand` argument; the result is truncated to a byte. -/
def exec_cxnn (s : Emulator) (x nn rand : Nat) : Emulator :=
  { s with var_registers := updateFn s.var_registers x ((rand % 65536 &&& nn) % 256) }

end Emulator

/-- Inner column loop of `exec_dxyn`: draw sprite byte `sprite_data` on row
`vy + i` starting at column `vx`.  The loop counter `j` starts at 0 with
`fuel = 8` remaining iterations, and the loop breaks when `vx + j` reaches the
right edge.  Returns the updated frame and `VF`. -/
def drawCols (vx row sprite_data : Nat) :
    Nat → Nat → (Nat → Bool) → Nat → ((Nat → Bool) × Nat)
  | _, 0, frame, vf => (frame, vf)
  | j, fuel + 1, frame, vf =>
    if vx + j = DISPLAY_WIDTH then (frame, vf)
    else
      let sprite_pixel_on := ((sprite_data >>> (7 - j)) &&& 1) = 1
      let frame_pixel_idx := (vx + j) + row * DISPLAY_WIDTH
      let display_pixel_on := frame frame_pixel_idx
      if display_pixel_on ∧ sprite_pixel_on then
        drawCols vx row sprite_data (j + 1) fuel
          (fun a => if a = frame_pixel_idx then false else frame a) 1
      else if ¬ display_pixel_on ∧ sprite_pixel_on then
        drawCols vx row sprite_data (j + 1) fuel
          (fun a => if a = frame_pixel_idx then true else frame a) vf
      else
        drawCols vx row sprite_data (j + 1) fuel frame vf

/-- Outer row loop of `exec_dxyn`: row counter `i` starts at 0 with `fuel = n`
remaining iterations; the loop stops entirely when `vy + i` reaches the bottom
edge, and otherwise reads the sprite byte at `index + i` (a bounds-checked
16-bit address) before drawing its 8 columns. -/
def drawRows (mem : Nat → Nat) (index vx vy : Nat) :
    Nat → Nat → (Nat → Bool) → Nat → Except EmuError ((Nat → Bool) × Nat)
  | _, 0, frame, vf => .ok (frame, vf)
  | i, fuel + 1, frame, vf =>
    if vy + i = DISPLAY_HEIGHT then .ok (frame, vf)
    else
      match memRead mem ((index + i) % 65536) with
      | .error e => .error e
      | .ok sprite_data =>
        let (frame1, vf1) := drawCols vx (vy + i) sprite_data 0 8 frame vf
        drawRows mem index vx vy (i + 1) fuel frame1 vf1

namespace Emulator

/-- Draw sprite (`exec_dxyn`): request a redraw, wrap the start coordinates
once (`vx % 64`, `vy % 32`), reset `VF` to 0, then run the clipped row/column
loops.  A sprite read past the end of RAM panics. -/
def exec_dxyn (s : Emulator) (x y n : Nat) : Except EmuError Emulator :=
  let vx := s.var_registers x % 64
  let vy := s.var_registers y % 32
  match drawRows s.memory s.index_register vx vy 0 n s.frame 0 with
  | .error e => .error e
  | .ok (frame1, vf1) =>
    .ok { s with should_draw := true, frame := frame1,
                 var_registers := updateFn s.var_registers 0xF vf1 }

/-- Skip if key down (`exec_ex9e`): the code tests
`self.pressed_keys.contains(&x)` — membership of the register-index nibble
`x` itself, not of the value held in `vx`. -/
def exec_ex9e (s : Emulator) (x : Nat) : Emulator :=
  if s.pressed_keys.contains x then { s with pc := (s.pc + 2) % 65536 } else s

/-- Skip if key up (`exec_exa1`): negation of `exec_ex9e`, again testing the
nibble `x` itself. -/
def exec_exa1 (s : Emulator) (x : Nat) : Emulator :=
  if ¬ s.pressed_keys.contains x then { s with pc := (s.pc + 2) % 65536 } else s

/-- Read delay timer (`exec_fx07`). -/
def exec_fx07 (s : Emulator) (x : Nat) : Emulator :=
  { s with var_registers := updateFn s.var_registers x s.delay_timer }

/-- Write delay timer (`exec_fx15`). -/
def exec_fx15 (s : Emulator) (x : Nat) : Emulator :=
  { s with delay_timer := s.var_registers x }

/-- Write sound timer (`exec_fx18`). -/
def exec_fx18 (s : Emulator) (x : Nat) : Emulator :=
  { s with sound_timer := s.var_registers x }

/-- Add to index (`exec_fx1e`): a plain 16-bit add with no bounds check; the
addition wraps modulo 65536. -/
def exec_fx1e (s : Emulator) (x : Nat) : Emulator :=
  { s with index_register := (s.index_register + s.var_registers x) % 65536 }

/-- Block for key (`exec_fx0a`): `pressed_keys.iter().next()` is the head of
the set's unspecified iteration order; with no key pressed the pc is rolled
back by 2 (a wrapping 16-bit subtraction). -/
def exec_fx0a (s : Emulator) (x : Nat) : Emulator :=
  match s.pressed_keys.head? with
  | some key => { s with var_registers := updateFn s.var_registers x (key % 256) }
  | none => { s with pc := (s.pc + 65534) % 65536 }

/-- Font address of a hex digit (`font_digit_address`): `u8` arithmetic,
5 bytes per glyph from `FONT_PC`. -/
def font_digit_address (digit : Nat) : Nat :=
  (FONT_PC + digit * 5) % 256

/-- Set index to font glyph (`exec_fx29`). -/
def exec_fx29 (s : Emulator) (x : Nat) : Emulator :=
  { s with index_register := font_digit_address (s.var_registers x) }

/-- Binary-coded decimal (`exec_fx33`): write the three decimal digits of `vx`
(most significant first, `format!("{:03}", vx)`) to `index`, `index + 1`,
`index + 2`, each a bounds-checked 16-bit address. -/
def exec_fx33 (s : Emulator) (x : Nat) : Except EmuError Emulator :=
  let vx := s.var_registers x
  match memWrite s.memory (s.index_register % 65536) (vx / 100 % 10) with
  | .error e => .error e
  | .ok m1 =>
    match memWrite m1 ((s.index_register + 1) % 65536) (vx / 10 % 10) with
    | .error e => .error e
    | .ok m2 =>
      match memWrite m2 ((s.index_register + 2) % 65536) (vx % 10) with
      | .error e => .error e
      | .ok m3 => .ok { s with memory := m3 }

end Emulator

/-- Loop body of `exec_fx55`: write registers `i`, `i+1`, … to memory at
`index + i`, `index + i + 1`, …; `fuel` iterations remain. -/
def storeLoop (regs : Nat → Nat) (index : Nat) :
    Nat → Nat → (Nat → Nat) → Except EmuError (Nat → Nat)
  | _, 0, mem => .ok mem
  | i, fuel + 1, mem =>
    match memWrite mem ((index + i) % 65536) (regs i) with
    | .error e => .error e
    | .ok mem1 => storeLoop regs index (i + 1) fuel mem1

/-- Loop body of `exec_fx65`: load registers `i`, `i+1`, … from memory at
`index + i`, `index + i + 1`, …; `fuel` iterations remain. -/
def loadLoop (mem : Nat → Nat) (index : Nat) :
    Nat → Nat → (Nat → Nat) → Except EmuError (Nat → Nat)
  | _, 0, regs => .ok regs
  | i, fuel + 1, regs =>
    match memRead mem ((index + i) % 65536) with
    | .error e => .error e
    | .ok v => loadLoop mem index (i + 1) fuel (updateFn regs i v)

namespace Emulator

/-- Bulk register store (`exec_fx55`): registers `0..=x` to memory starting at
the index register (`x + 1` iterations); afterwards, under the store/load
quirk, the index register advances by `x + 1` (16-bit wrapping add). -/
def exec_fx55 (s : Emulator) (x : Nat) : Except EmuError Emulator :=
  match storeLoop s.var_registers s.index_register 0 (x + 1) s.memory with
  | .error e => .error e
  | .ok mem1 =>
    .ok { s with memory := mem1,
                 index_register :=
                   if s.op_store_and_load_original
                   then (s.index_register + x + 1) % 65536
                   else s.index_register }

/-- Bulk register load (`exec_fx65`): memory starting at the index register
into registers `0..=x`; same quirk-controlled index advance as `exec_fx55`. -/
def exec_fx65 (s : Emulator) (x : Nat) : Except EmuError Emulator :=
  match loadLoop s.memory s.index_register 0 (x + 1) s.var_registers with
  | .error e => .error e
  | .ok regs1 =>
    .ok { s with var_registers := regs1,
                 index_register :=
                   if s.op_store_and_load_original
                   then (s.index_register + x + 1) % 65536
                   else s.index_register }

/-- Fetch (`fetch`): read two successive bounds-checked bytes at the program
counter, combine them big-endian, and advance the pc by 2. -/
def fetch (s : Emulator) : Except EmuError (Emulator × Nat) :=
  match memRead s.memory s.pc with
  | .error e => .error e
  | .ok hi =>
    match memRead s.memory ((s.pc + 1) % 65536) with
    | .error e => .error e
    | .ok lo => .ok ({ s with pc := (s.pc + 2) % 65536 }, (hi <<< 8) ||| lo)

/-- Dispatch of `decode_and_execute` on the decoded fields
`(first_nibble, x, y, n)` plus the immediates `nn` and `nnn`.  The Rust
`match` over the nibble tuple is encoded as the equivalent ordered
first-match chain of its rows (the tuple patterns are non-overlapping, so the
order is immaterial); unknown patterns only log and leave the state
unchanged. -/
def dispatchOp (s : Emulator) (first_nibble x y n nn nnn rand : Nat) :
    Except EmuError Emulator :=
  if first_nibble = 0x0 ∧ x = 0x0 ∧ y = 0xE ∧ n = 0x0 then .ok (s.exec_00e0)
  else if first_nibble = 0x0 ∧ x = 0x0 ∧ y = 0xE ∧ n = 0xE then s.exec_00ee
  else if first_nibble = 0x1 then .ok (s.exec_1nnn nnn)
  else if first_nibble = 0x2 then .ok (s.exec_2nnn nnn)
  else if first_nibble = 0x3 then .ok (s.exec_3xnn x nn)
  else if first_nibble = 0x4 then .ok (s.exec_4xnn x nn)
  else if first_nibble = 0x5 ∧ n = 0x0 then .ok (s.exec_5xy0 x y)
  else if first_nibble = 0x6 then .ok (s.exec_6xnn x nn)
  else if first_nibble = 0x7 then .ok (s.exec_7xnn x nn)
  else if first_nibble = 0x8 ∧ n = 0x0 then .ok (s.exec_8xy0 x y)
  else if first_nibble = 0x8 ∧ n = 0x1 then .ok (s.exec_8xy1 x y)
  else if first_nibble = 0x8 ∧ n = 0x2 then .ok (s.exec_8xy2 x y)
  else if first_nibble = 0x8 ∧ n = 0x3 then .ok (s.exec_8xy3 x y)
  else if first_nibble = 0x8 ∧ n = 0x4 then .ok (s.exec_8xy4 x y)
  else if first_nibble = 0x8 ∧ n = 0x5 then .ok (s.exec_8xy5 x y)
  else if first_nibble = 0x8 ∧ n = 0x6 then .ok (s.exec_8xy6 x y)
  else if first_nibble = 0x8 ∧ n = 0x7 then .ok (s.exec_8xy7 x y)
  else if first_nibble = 0x8 ∧ n = 0xE then .ok (s.exec_8xye x y)
  else if first_nibble = 0x9 ∧ n = 0x0 then .ok (s.exec_9xy0 x y)
  else if first_nibble = 0xA then .ok (s.exec_annn nnn)
  else if first_nibble = 0xB then .ok (s.exec_bnnn x nnn)
  else if first_nibble = 0xC then .ok (s.exec_cxnn x nn rand)
  else if first_nibble = 0xD then s.exec_dxyn x y n
  else if first_nibble = 0xE ∧ y = 0x9 ∧ n = 0xE then .ok (s.exec_ex9e x)
  else if first_nibble = 0xE ∧ y = 0xA ∧ n = 0x1 then .ok (s.exec_exa1 x)
  else if first_nibble = 0xF ∧ y = 0x0 ∧ n = 0x7 then .ok (s.exec_fx07 x)
  else if first_nibble = 0xF ∧ y = 0x1 ∧ n = 0x5 then .ok (s.exec_fx15 x)
  else if first_nibble = 0xF ∧ y = 0x1 ∧ n = 0x8 then .ok (s.exec_fx18 x)
  else if first_nibble = 0xF ∧ y = 0x1 ∧ n = 0xE then .ok (s.exec_fx1e x)
  else if first_nibble = 0xF ∧ y = 0x0 ∧ n = 0xA then .ok (s.exec_fx0a x)
  else if first_nibble = 0xF ∧ y = 0x2 ∧ n = 0x9 then .ok (s.exec_fx29 x)
  else if first_nibble = 0xF ∧ y = 0x3 ∧ n = 0x3 then s.exec_fx33 x
  else if first_nibble = 0xF ∧ y = 0x5 ∧ n = 0x5 then s.exec_fx55 x
  else if first_nibble = 0xF ∧ y = 0x6 ∧ n = 0x5 then s.exec_fx65 x
  else .ok s

/-- Decode and execute (`decode_and_execute`): extract the nibble fields
`first_nibble`, `x`, `y`, `n` and the immediates `nn`, `nnn` from the
instruction word, then dispatch. -/
def decode_and_execute (s : Emulator) (instruction rand : Nat) :
    Except EmuError Emulator :=
  dispatchOp s ((instruction >>> 12) &&& 0xF) ((instruction >>> 8) &&& 0xF)
    ((instruction >>> 4) &&& 0xF) (instruction &&& 0xF) (instruction &&& 0xFF)
    (instruction &&& 0xFFF) rand

end Emulator

/-- Cycle burst (`execute_cycles`): run `cycles` fetch/decode/execute steps,
drawing one random value per step from the stream `rands`.  A panic in any
step aborts the burst. -/
def execute_cycles : Emulator → Nat → (Nat → Nat) → Except EmuError Emulator
  | s, 0, _ => .ok s
  | s, cycles + 1, rands =>
    match s.fetch with
    | .error e => .error e
    | .ok (s1, instruction) =>
      match s1.decode_and_execute instruction (rands 0) with
      | .error e => .error e
      | .ok s2 => execute_cycles s2 cycles (fun i => rands (i + 1))

namespace Emulator

/-- Sound-timer frame update (`update_sound_timer`): while the timer is
nonzero, lazily append the looped tone once, decrement, and keep the sink
playing; at zero pause the sink. -/
def update_sound_timer (s : Emulator) : Emulator :=
  if s.sound_timer > 0 then
    { s with audio_sink_initialized := true,
             sound_timer := s.sound_timer - 1,
             audio_playing := true }
  else
    { s with audio_playing := false }

/-- Delay-timer frame update (`update_delay_timer`). -/
def update_delay_timer (s : Emulator) : Emulator :=
  if s.delay_timer > 0 then { s with delay_timer := s.delay_timer - 1 } else s

end Emulator

/-- Core of one iteration of the `run` loop (its wall-clock pacing and the
render/key-event collaborators aside): execute the due cycle burst, then
update the sound timer and the delay timer once each. -/
def frameCore (s : Emulator) (cycles : Nat) (rands : Nat → Nat) :
    Except EmuError Emulator :=
  match execute_cycles s cycles rands with
  | .error e => .error e
  | .ok s1 => .ok (s1.update_sound_timer.update_delay_timer)

/-- Iterated frame ticks of the sound timer alone (the first ticks after
construction, before any instruction touches the timer). -/
def soundTicks (s : Emulator) : Nat → Emulator
  | 0 => s
  | k + 1 => (soundTicks s k).update_sound_timer

/-- The builtin font sprite data (`load_fonts`), 16 glyphs of 5 bytes. -/
def fontData : List Nat :=
  [0xF0, 0x90, 0x90, 0x90, 0xF0,
   0x20, 0x60, 0x20, 0x20, 0x70,
   0xF0, 0x10, 0xF0, 0x80, 0xF0,
   0xF0, 0x10, 0xF0, 0x10, 0xF0,
   0x90, 0x90, 0xF0, 0x10, 0x10,
   0xF0, 0x80, 0xF0, 0x10, 0xF0,
   0xF0, 0x80, 0xF0, 0x90, 0xF0,
   0xF0, 0x10, 0x20, 0x40, 0x40,
   0xF0, 0x90, 0xF0, 0x90, 0xF0,
   0xF0, 0x90, 0xF0, 0x10, 0xF0,
   0xF0, 0x90, 0xF0, 0x90, 0x90,
   0xE0, 0x90, 0xE0, 0x90, 0xE0,
   0xF0, 0x80, 0x80, 0x80, 0xF0,
   0xE0, 0x90, 0x90, 0x90, 0xE0,
   0xF0, 0x80, 0xF0, 0x80, 0xF0,
   0xF0, 0x80, 0xF0, 0x80, 0x80]

/-- The write loop of `load_fonts`: store the font bytes at successive
addresses from `FONT_PC`. -/
def loadFontsLoop : List Nat → Nat → (Nat → Nat) → (Nat → Nat)
  | [], _, mem => mem
  | v :: rest, index, mem => loadFontsLoop rest (index + 1) (updateFn mem index v)

/-- Font preload (`load_fonts`) applied to a memory image. -/
def load_fonts (mem : Nat → Nat) : Nat → Nat :=
  loadFontsLoop fontData FONT_PC mem

/-- Constructor (`Emulator::new`): zeroed memory plus the font preload,
`pc = PC_START`, empty stack, zero registers, both timers at 60, quirks from
the arguments, no key pressed.  The pixel buffer is handed in by the caller,
so its initial content is the parameter `frame0`; the freshly connected audio
sink has nothing queued and is not playing. -/
def Emulator.new (cycle_rate : Nat)
    (op_shift_original op_jump_with_offset_original op_store_and_load_original : Bool)
    (frame0 : Nat → Bool) : Emulator :=
  { cycle_rate := cycle_rate
    memory := load_fonts (fun _ => 0)
    pc := PC_START
    stack := []
    index_register := 0
    var_registers := fun _ => 0
    delay_timer := 60
    sound_timer := 60
    op_shift_original := op_shift_original
    op_jump_with_offset_original := op_jump_with_offset_original
    op_store_and_load_original := op_store_and_load_original
    pressed_keys := []
    frame := frame0
    should_draw := false
    audio_playing := false
    audio_sink_initialized := false }

/-- Recognizer for the two timer-write instruction shapes `FX15` and `FX18`,
matching the decoder's dispatch fields. -/
def timer_write_inst (instruction : Nat) : Bool :=
  ((instruction >>> 12) &&& 0xF == 0xF) &&
    ((instruction >>> 4) &&& 0xF == 0x1) &&
    (instruction &&& 0xF == 0x5 || instruction &&& 0xF == 0x8)

/-- A cycle burst avoids the timer-write opcodes: every instruction actually
fetched and executed along the burst fails `timer_write_inst` (steps after a
panic are vacuous). -/
def burstAvoidsTimerWrites : Emulator → Nat → (Nat → Nat) → Prop
  | _, 0, _ => True
  | s, cycles + 1, rands =>
    match s.fetch with
    | .error _ => True
    | .ok (s1, instruction) =>
      timer_write_inst instruction = false ∧
      match s1.decode_and_execute instruction (rands 0) with
      | .error _ => True
      | .ok s2 => burstAvoidsTimerWrites s2 cycles (fun i => rands (i + 1))

/-- Observed program counter of a fallible step, used to evaluate concrete
executions. -/
def obsPc (r : Except EmuError Emulator) : Option Nat :=
  r.toOption.map Emulator.pc

/-- Observed register value of a fallible step. -/
def obsReg (i : Nat) (r : Except EmuError Emulator) : Option Nat :=
  r.toOption.map (fun s => s.var_registers i)

/-- Observed index register of a fallible step. -/
def obsIndex (r : Except EmuError Emulator) : Option Nat :=
  r.toOption.map Emulator.index_register

/-- Observed memory byte of a fallible step. -/
def obsMem (a : Nat) (r : Except EmuError Emulator) : Option Nat :=
  r.toOption.map (fun s => s.memory a)

/-- Observed pixel of a fallible step. -/
def obsPixel (idx : Nat) (r : Except EmuError Emulator) : Option Bool :=
  r.toOption.map (fun s => s.frame idx)


theorem exec_00ee_timers (s s2 : Emulator) (h : s.exec_00ee = .ok s2) :
    s2.delay_timer = s.delay_timer ∧ s2.sound_timer = s.sound_timer := by
  simp only [Emulator.exec_00ee] at h
  split at h
  · exact absurd h (by simp)
  · cases h; exact ⟨rfl, rfl⟩

theorem exec_dxyn_timers (s s2 : Emulator) (x y n : Nat) (h : s.exec_dxyn x y n = .ok s2) :
    s2.delay_timer = s.delay_timer ∧ s2.sound_timer = s.sound_timer := by
  simp only [Emulator.exec_dxyn] at h
  split at h
  · exact absurd h (by simp)
  · cases h; exact ⟨rfl, rfl⟩

theorem exec_fx33_timers (s s2 : Emulator) (x : Nat) (h : s.exec_fx33 x = .ok s2) :
    s2.delay_timer = s.delay_timer ∧ s2.sound_timer = s.sound_timer := by
  simp only [Emulator.exec_fx33] at h
  split at h <;> [exact absurd h (by simp); skip]
  split at h <;> [exact absurd h (by simp); skip]
  split at h <;> [exact absurd h (by simp); skip]
  cases h; exact ⟨rfl, rfl⟩

theorem exec_fx55_timers (s s2 : Emulator) (x : Nat) (h : s.exec_fx55 x = .ok s2) :
    s2.delay_timer = s.delay_timer ∧ s2.sound_timer = s.sound_timer := by
  simp only [Emulator.exec_fx55] at h
  split at h
  · exact absurd h (by simp)
  · cases h; exact ⟨rfl, rfl⟩

theorem exec_fx65_timers (s s2 : Emulator) (x : Nat) (h : s.exec_fx65 x = .ok s2) :
    s2.delay_timer = s.delay_timer ∧ s2.sound_timer = s.sound_timer := by
  simp only [Emulator.exec_fx65] at h
  split at h
  · exact absurd h (by simp)
  · cases h; exact ⟨rfl, rfl⟩

theorem dispatchOp_timers (s s2 : Emulator) (a b c d nn nnn rand : Nat)
    (hnw : ¬ (a = 0xF ∧ c = 0x1 ∧ (d = 0x5 ∨ d = 0x8)))
    (h : Emulator.dispatchOp s a b c d nn nnn rand = .ok s2) :
    s2.delay_timer = s.delay_timer ∧ s2.sound_timer = s.sound_timer := by
  unfold Emulator.dispatchOp at h
  by_cases h1 : a = 0x0 ∧ b = 0x0 ∧ c = 0xE ∧ d = 0x0
  · rw [if_pos h1] at h; cases h; exact ⟨rfl, rfl⟩
  rw [if_neg h1] at h
  by_cases h2 : a = 0x0 ∧ b = 0x0 ∧ c = 0xE ∧ d = 0xE
  · rw [if_pos h2] at h; exact exec_00ee_timers s s2 h
  rw [if_neg h2] at h
  by_cases h3 : a = 0x1
  · rw [if_pos h3] at h; cases h; exact ⟨rfl, rfl⟩
  rw [if_neg h3] at h
  by_cases h4 : a = 0x2
  · rw [if_pos h4] at h; cases h; exact ⟨rfl, rfl⟩
  rw [if_neg h4] at h
  by_cases h5 : a = 0x3
  · rw [if_pos h5] at h; cases h
    unfold Emulator.exec_3xnn; split <;> exact ⟨rfl, rfl⟩
  rw [if_neg h5] at h
  by_cases h6 : a = 0x4
  · rw [if_pos h6] at h; cases h
    unfold Emulator.exec_4xnn; split <;> exact ⟨rfl, rfl⟩
  rw [if_neg h6] at h
  by_cases h7 : a = 0x5 ∧ d = 0x0
  · rw [if_pos h7] at h; cases h
    unfold Emulator.exec_5xy0; split <;> exact ⟨rfl, rfl⟩
  rw [if_neg h7] at h
  by_cases h8 : a = 0x6
  · rw [if_pos h8] at h; cases h; exact ⟨rfl, rfl⟩
  rw [if_neg h8] at h
  by_cases h9 : a = 0x7
  · rw [if_pos h9] at h; cases h; exact ⟨rfl, rfl⟩
  rw [if_neg h9] at h
  by_cases h10 : a = 0x8 ∧ d = 0x0
  · rw [if_pos h10] at h; cases h; exact ⟨rfl, rfl⟩
  rw [if_neg h10] at h
  by_cases h11 : a = 0x8 ∧ d = 0x1
  · rw [if_pos h11] at h; cases h; exact ⟨rfl, rfl⟩
  rw [if_neg h11] at h
  by_cases h12 : a = 0x8 ∧ d = 0x2
  · rw [if_pos h12] at h; cases h; exact ⟨rfl, rfl⟩
  rw [if_neg h12] at h
  by_cases h13 : a = 0x8 ∧ d = 0x3
  · rw [if_pos h13] at h; cases h; exact ⟨rfl, rfl⟩
  rw [if_neg h13] at h
  by_cases h14 : a = 0x8 ∧ d = 0x4
  · rw [if_pos h14] at h; cases h; exact ⟨rfl, rfl⟩
  rw [if_neg h14] at h
  by_cases h15 : a = 0x8 ∧ d = 0x5
  · rw [if_pos h15] at h; cases h; exact ⟨rfl, rfl⟩
  rw [if_neg h15] at h
  by_cases h16 : a = 0x8 ∧ d = 0x6
  · rw [if_pos h16] at h; cases h; exact ⟨rfl, rfl⟩
  rw [if_neg h16] at h
  by_cases h17 : a = 0x8 ∧ d = 0x7
  · rw [if_pos h17] at h; cases h; exact ⟨rfl, rfl⟩
  rw [if_neg h17] at h
  by_cases h18 : a = 0x8 ∧ d = 0xE
  · rw [if_pos h18] at h; cases h; exact ⟨rfl, rfl⟩
  rw [if_neg h18] at h
  by_cases h19 : a = 0x9 ∧ d = 0x0
  · rw [if_pos h19] at h; cases h
    unfold Emulator.exec_9xy0; split <;> exact ⟨rfl, rfl⟩
  rw [if_neg h19] at h
  by_cases h20 : a = 0xA
  · rw [if_pos h20] at h; cases h; exact ⟨rfl, rfl⟩
  rw [if_neg h20] at h
  by_cases h21 : a = 0xB
  · rw [if_pos h21] at h; cases h; exact ⟨rfl, rfl⟩
  rw [if_neg h21] at h
  by_cases h22 : a = 0xC
  · rw [if_pos h22] at h; cases h; exact ⟨rfl, rfl⟩
  rw [if_neg h22] at h
  by_cases h23 : a = 0xD
  · rw [if_pos h23] at h; exact exec_dxyn_timers s s2 _ _ _ h
  rw [if_neg h23] at h
  by_cases h24 : a = 0xE ∧ c = 0x9 ∧ d = 0xE
  · rw [if_pos h24] at h; cases h
    unfold Emulator.exec_ex9e; split <;> exact ⟨rfl, rfl⟩
  rw [if_neg h24] at h
  by_cases h25 : a = 0xE ∧ c = 0xA ∧ d = 0x1
  · rw [if_pos h25] at h; cases h
    unfold Emulator.exec_exa1; split <;> exact ⟨rfl, rfl⟩
  rw [if_neg h25] at h
  by_cases h26 : a = 0xF ∧ c = 0x0 ∧ d = 0x7
  · rw [if_pos h26] at h; cases h; exact ⟨rfl, rfl⟩
  rw [if_neg h26] at h
  by_cases h27 : a = 0xF ∧ c = 0x1 ∧ d = 0x5
  · exact absurd ⟨h27.1, h27.2.1, Or.inl h27.2.2⟩ hnw
  rw [if_neg h27] at h
  by_cases h28 : a = 0xF ∧ c = 0x1 ∧ d = 0x8
  · exact absurd ⟨h28.1, h28.2.1, Or.inr h28.2.2⟩ hnw
  rw [if_neg h28] at h
  by_cases h29 : a = 0xF ∧ c = 0x1 ∧ d = 0xE
  · rw [if_pos h29] at h; cases h; exact ⟨rfl, rfl⟩
  rw [if_neg h29] at h
  by_cases h30 : a = 0xF ∧ c = 0x0 ∧ d = 0xA
  · rw [if_pos h30] at h; cases h
    unfold Emulator.exec_fx0a
    cases hk : s.pressed_keys.head? <;> simp [hk]
  rw [if_neg h30] at h
  by_cases h31 : a = 0xF ∧ c = 0x2 ∧ d = 0x9
  · rw [if_pos h31] at h; cases h; exact ⟨rfl, rfl⟩
  rw [if_neg h31] at h
  by_cases h32 : a = 0xF ∧ c = 0x3 ∧ d = 0x3
  · rw [if_pos h32] at h; exact exec_fx33_timers s s2 _ h
  rw [if_neg h32] at h
  by_cases h33 : a = 0xF ∧ c = 0x5 ∧ d = 0x5
  · rw [if_pos h33] at h; exact exec_fx55_timers s s2 _ h
  rw [if_neg h33] at h
  by_cases h34 : a = 0xF ∧ c = 0x6 ∧ d = 0x5
  · rw [if_pos h34] at h; exact exec_fx65_timers s s2 _ h
  rw [if_neg h34] at h
  cases h; exact ⟨rfl, rfl⟩

theorem dispatchOp_fx0a (s : Emulator) (b nn nnn rand : Nat) :
    Emulator.dispatchOp s 0xF b 0x0 0xA nn nnn rand = .ok (s.exec_fx0a b) := by
  unfold Emulator.dispatchOp
  norm_num

theorem fetch_ok_inv (s s1 : Emulator) (inst : Nat) (h : s.fetch = .ok (s1, inst)) :
    s.pc + 1 < 4096 ∧ s1 = { s with pc := s.pc + 2 } ∧
    inst = ((s.memory s.pc) <<< 8) ||| s.memory (s.pc + 1) := by
  unfold Emulator.fetch memRead at h
  by_cases c1 : s.pc < RAM_SIZE
  · rw [if_pos c1] at h
    simp only [RAM_SIZE] at c1
    rw [Nat.mod_eq_of_lt (by omega : s.pc + 1 < 65536)] at h
    by_cases c2 : s.pc + 1 < RAM_SIZE
    · rw [if_pos c2] at h
      simp only [RAM_SIZE] at c2
      injection h with h2
      rw [Prod.mk.injEq] at h2
      rw [Nat.mod_eq_of_lt (by omega : s.pc + 2 < 65536)] at h2
      exact ⟨c2, h2.1.symm, h2.2.symm⟩
    · rw [if_neg c2] at h; exact absurd h (by simp)
  · rw [if_neg c1] at h; exact absurd h (by simp)

theorem fetch_ok_of_lt (s : Emulator) (h : s.pc + 1 < 4096) :
    s.fetch = .ok ({ s with pc := (s.pc + 2) % 65536 },
      ((s.memory s.pc) <<< 8) ||| s.memory (s.pc + 1)) := by
  unfold Emulator.fetch memRead
  rw [if_pos (by simp only [RAM_SIZE]; omega : s.pc < RAM_SIZE)]
  rw [Nat.mod_eq_of_lt (by omega : s.pc + 1 < 65536)]
  rw [if_pos (by simp only [RAM_SIZE]; omega : s.pc + 1 < RAM_SIZE)]

/-- C2 (amended): for a fetched block-for-key instruction `FX0A`, with no key
pressed the pc is rolled back so the net step leaves the observable state
unchanged and the same instruction is re-fetched; with at least one key
pressed the destination register receives the first key of the pressed set's
iteration order (an arbitrary pressed key, not a documented lowest-code
tie-break) and the pc advances normally by 2. -/
theorem fx0a_busy_wait_or_first_key (s s1 : Emulator) (inst rand : Nat)
    (hf : s.fetch = .ok (s1, inst))
    (hop : (inst >>> 12) &&& 0xF = 0xF) (hy : (inst >>> 4) &&& 0xF = 0x0)
    (hn : inst &&& 0xF = 0xA) :
    (s.pressed_keys = [] →
      ∃ s2, s1.decode_and_execute inst rand = .ok s2 ∧ s2.pc = s.pc ∧
        s2.var_registers = s.var_registers ∧ s2.memory = s.memory ∧
        s2.fetch = .ok ({ s2 with pc := s.pc + 2 }, inst)) ∧
    (∀ key rest, s.pressed_keys = key :: rest → key < 256 →
      ∃ s2, s1.decode_and_execute inst rand = .ok s2 ∧ s2.pc = s.pc + 2 ∧
        s2.var_registers ((inst >>> 8) &&& 0xF) = key ∧ key ∈ s.pressed_keys) := by
  obtain ⟨hpc, hs1, hinst⟩ := fetch_ok_inv s s1 inst hf
  have hdec : s1.decode_and_execute inst rand =
      .ok (s1.exec_fx0a ((inst >>> 8) &&& 0xF)) := by
    unfold Emulator.decode_and_execute
    rw [hop, hy, hn]
    exact dispatchOp_fx0a s1 _ _ _ rand
  have hmod : (s.pc + 2 + 65534) % 65536 = s.pc := by omega
  constructor
  · intro hempty
    have hs2 : s1.exec_fx0a ((inst >>> 8) &&& 0xF) = s := by
      unfold Emulator.exec_fx0a
      rw [hs1]
      simp only [hempty, List.head?_nil]
      rw [hmod, ← hempty]
    refine ⟨s, ?_, rfl, rfl, rfl, ?_⟩
    · rw [hdec, hs2]
    · have h2 := fetch_ok_of_lt s (by omega)
      rw [Nat.mod_eq_of_lt (by omega : s.pc + 2 < 65536)] at h2
      rw [h2, hinst]
  · intro key rest hkeys hkey
    refine ⟨_, hdec, ?_, ?_, ?_⟩
    · unfold Emulator.exec_fx0a
      rw [hs1]
      simp only [hkeys, List.head?_cons]
    · unfold Emulator.exec_fx0a
      rw [hs1]
      simp only [hkeys, List.head?_cons]
      show updateFn s.var_registers ((inst >>> 8) &&& 0xF) (key % 256)
          ((inst >>> 8) &&& 0xF) = key
      simp [updateFn, Nat.mod_eq_of_lt hkey]
    · simp [hkeys]

/-- A concrete freshly constructed emulator used by concrete evaluations. -/
def emu0 : Emulator := Emulator.new 700 true true false (fun _ => false)

/-- State with `V1 = 5` and the key with code 5 held down. -/
def c1A : Emulator :=
  { emu0 with var_registers := updateFn (fun _ => 0) 1 5, pressed_keys := [5] }

/-- Same registers, but instead the key with code 1 (the register index) held
down. -/
def c1B : Emulator := { c1A with pressed_keys := [1] }

/-- C1 (code bug): `EX9E`/`EXA1` consult the pressed-key set with the
register-index nibble `x` itself instead of the value held in register `x`:
with `V1 = 5` and key 5 down, `EX9E` with `x = 1` does not skip and `EXA1`
does skip, while holding key 1 — the register index, whose code differs from
`V1` — makes `EX9E` skip. -/
theorem ex9e_exa1_use_nibble_not_register_value :
    c1A.var_registers 1 = 5 ∧ c1A.pressed_keys.contains 5 = true ∧
    (c1A.exec_ex9e 1).pc = c1A.pc ∧
    (c1A.exec_exa1 1).pc = c1A.pc + 2 ∧
    c1B.pressed_keys.contains (c1B.var_registers 1) = false ∧
    (c1B.exec_ex9e 1).pc = c1B.pc + 2 := by
  refine ⟨rfl, rfl, rfl, rfl, rfl, rfl⟩

/-- State with keys 3 and 1 both held down, the set's iteration order
yielding 3 first. -/
def c2Multi : Emulator := { emu0 with pressed_keys := [3, 1] }

/-- C2 counterexample: with keys 3 and 1 down and the hash set's iteration
order yielding 3 first, `FX0A` stores 3 — not the lowest code 1 — in the
destination register: there is no lowest-code tie-break. -/
theorem fx0a_not_lowest_code_counterexample :
    (c2Multi.exec_fx0a 0).var_registers 0 = 3 ∧
    1 ∈ c2Multi.pressed_keys ∧ 1 < 3 := by
  refine ⟨rfl, by decide, by decide⟩

/-- Fresh emulator with the instruction `F00A` (block-for-key into `V0`)
stored at the program start. -/
def c2NoKey : Emulator :=
  { emu0 with memory := updateFn (updateFn emu0.memory 512 0xF0) 513 0x0A }

/-- The same program with the key with code 7 held down. -/
def c2Key : Emulator := { c2NoKey with pressed_keys := [7] }

/-- C2 witness: the amended block-for-key theorem applied to a concrete
fetched `F00A`, once with no key pressed and once with key 7 pressed. -/
theorem fx0a_busy_wait_or_first_key_witness :
    (∃ s2, Emulator.decode_and_execute { c2NoKey with pc := 514 } 0xF00A 0 = .ok s2 ∧
       s2.pc = c2NoKey.pc ∧ s2.var_registers = c2NoKey.var_registers ∧
       s2.memory = c2NoKey.memory ∧
       s2.fetch = .ok ({ s2 with pc := c2NoKey.pc + 2 }, 0xF00A)) ∧
    (∃ s2, Emulator.decode_and_execute { c2Key with pc := 514 } 0xF00A 0 = .ok s2 ∧
       s2.pc = c2Key.pc + 2 ∧ s2.var_registers 0 = 7 ∧ 7 ∈ c2Key.pressed_keys) := by
  constructor
  · exact (fx0a_busy_wait_or_first_key c2NoKey _ 0xF00A 0 rfl rfl rfl rfl).1 rfl
  · exact (fx0a_busy_wait_or_first_key c2Key _ 0xF00A 0 rfl rfl rfl rfl).2 7 [] rfl
      (by norm_num)

theorem updateFn_self (f : Nat → Nat) (i v : Nat) : updateFn f i v i = v := by
  simp [updateFn]

theorem updateFn_ne (f : Nat → Nat) (i v j : Nat) (h : j ≠ i) : updateFn f i v j = f j := by
  simp [updateFn, h]

/-- C5 (amended): `8XY4` stores the mod-256 sum in register `x` and then
sets `VF` to 1 iff the 8-bit addition overflowed; `8XY5` stores the wrapped
difference `x - y` and sets `VF` to 1 iff `vx >= vy`; `8XY7` is the same with
operands swapped.  Because the flag write happens after the result write,
when `x = 0xF` the flag overwrites the stored result, so the result equation
holds for `x` distinct from `0xF`. -/
theorem alu_add_sub_results_and_flags (s : Emulator) (x y : Nat)
    (hvy : s.var_registers y < 256) (hvx : s.var_registers x < 256) :
    ((s.exec_8xy4 x y).var_registers 0xF =
        (if 256 ≤ s.var_registers x + s.var_registers y then 1 else 0)) ∧
    (x ≠ 0xF → (s.exec_8xy4 x y).var_registers x =
        (s.var_registers x + s.var_registers y) % 256) ∧
    ((s.exec_8xy5 x y).var_registers 0xF =
        (if s.var_registers y ≤ s.var_registers x then 1 else 0)) ∧
    (x ≠ 0xF → (s.exec_8xy5 x y).var_registers x =
        (s.var_registers x + 256 - s.var_registers y) % 256) ∧
    ((s.exec_8xy7 x y).var_registers 0xF =
        (if s.var_registers x ≤ s.var_registers y then 1 else 0)) ∧
    (x ≠ 0xF → (s.exec_8xy7 x y).var_registers x =
        (s.var_registers y + 256 - s.var_registers x) % 256) := by
  unfold Emulator.exec_8xy4 Emulator.exec_8xy5 Emulator.exec_8xy7
  dsimp only
  refine ⟨?_, ?_, ?_, ?_, ?_, ?_⟩
  · rw [updateFn_self]
    simp only [decide_eq_true_eq]
  · intro hx
    rw [updateFn_ne _ _ _ _ hx, updateFn_self]
  · rw [updateFn_self]
    simp only [decide_eq_true_eq]
    by_cases hc : s.var_registers x < s.var_registers y
    · rw [if_pos hc, if_neg (by omega)]
    · rw [if_neg hc, if_pos (by omega)]
  · intro hx
    rw [updateFn_ne _ _ _ _ hx, updateFn_self, Nat.mod_eq_of_lt hvy]
  · rw [updateFn_self]
    simp only [decide_eq_true_eq]
    by_cases hc : s.var_registers y < s.var_registers x
    · rw [if_pos hc, if_neg (by omega)]
    · rw [if_neg hc, if_pos (by omega)]
  · intro hx
    rw [updateFn_ne _ _ _ _ hx, updateFn_self, Nat.mod_eq_of_lt hvx]

/-- State whose flag register `VF` holds `0x80`. -/
def c5Flag : Emulator := { emu0 with var_registers := updateFn (fun _ => 0) 15 0x80 }

/-- C5 counterexample: for `8XY4` with `x = y = 0xF` and `VF = 0x80` the
final `VF` is the carry flag 1, not the wrapped sum 0 the claim requires to
be stored in register `x`. -/
theorem add_into_flag_register_counterexample :
    (c5Flag.exec_8xy4 15 15).var_registers 15 = 1 ∧
    (c5Flag.var_registers 15 + c5Flag.var_registers 15) % 256 = 0 ∧ (1 : Nat) ≠ 0 := by
  refine ⟨rfl, rfl, by decide⟩

/-- State with `V0 = 0xFF`, `V1 = 0x01`. -/
def c5Add : Emulator :=
  { emu0 with var_registers := updateFn (updateFn (fun _ => 0) 0 0xFF) 1 0x01 }

/-- State with `V0 = 0x05`, `V1 = 0x0A`. -/
def c5Sub : Emulator :=
  { emu0 with var_registers := updateFn (updateFn (fun _ => 0) 0 0x05) 1 0x0A }

/-- C5 witness: the three numeric examples of the claim, by applying the
amended theorem at concrete states. -/
theorem alu_add_sub_results_and_flags_witness :
    ((c5Add.exec_8xy4 0 1).var_registers 0 = 0x00 ∧
     (c5Add.exec_8xy4 0 1).var_registers 15 = 1) ∧
    ((c5Sub.exec_8xy5 0 1).var_registers 0 = 0xFB ∧
     (c5Sub.exec_8xy5 0 1).var_registers 15 = 0) ∧
    ((c5Sub.exec_8xy5 1 0).var_registers 1 = 0x05 ∧
     (c5Sub.exec_8xy5 1 0).var_registers 15 = 1) := by
  have h1 := alu_add_sub_results_and_flags c5Add 0 1 (by decide) (by decide)
  have h2 := alu_add_sub_results_and_flags c5Sub 0 1 (by decide) (by decide)
  have h3 := alu_add_sub_results_and_flags c5Sub 1 0 (by decide) (by decide)
  refine ⟨⟨?_, ?_⟩, ⟨?_, ?_⟩, ⟨?_, ?_⟩⟩
  · rw [h1.2.1 (by decide)]; decide
  · rw [h1.1]; decide
  · rw [h2.2.2.2.1 (by decide)]; decide
  · rw [h2.2.2.1]; decide
  · rw [h3.2.2.2.1 (by decide)]; decide
  · rw [h3.2.2.1]; decide

/-- C6 (amended): with the shift-source quirk enabled, `8XY6`/`8XYE` shift
the value of register `y`, overwrite register `x` with the result and leave
register `y` unchanged provided `y` is neither `x` nor `0xF`; with the quirk
disabled the shifted value is register `x` itself and `y` is ignored
entirely.  `VF` receives the shifted-out bit (bit 0 for SHR, bit 7 for SHL),
winning over the result when `x = 0xF`. -/
theorem shift_source_quirk_semantics (s : Emulator) (x y : Nat) :
    (s.op_shift_original = true →
      (x ≠ 0xF → (s.exec_8xy6 x y).var_registers x = s.var_registers y >>> 1) ∧
      (s.exec_8xy6 x y).var_registers 0xF = s.var_registers y &&& 1 ∧
      (y ≠ x → y ≠ 0xF → (s.exec_8xy6 x y).var_registers y = s.var_registers y) ∧
      (x ≠ 0xF → (s.exec_8xye x y).var_registers x = (s.var_registers y <<< 1) % 256) ∧
      (s.exec_8xye x y).var_registers 0xF = (s.var_registers y &&& 0x80) >>> 7 ∧
      (y ≠ x → y ≠ 0xF → (s.exec_8xye x y).var_registers y = s.var_registers y)) ∧
    (s.op_shift_original = false →
      (∀ y2, s.exec_8xy6 x y = s.exec_8xy6 x y2 ∧ s.exec_8xye x y = s.exec_8xye x y2) ∧
      (x ≠ 0xF → (s.exec_8xy6 x y).var_registers x = s.var_registers x >>> 1) ∧
      (s.exec_8xy6 x y).var_registers 0xF = s.var_registers x &&& 1 ∧
      (x ≠ 0xF → (s.exec_8xye x y).var_registers x = (s.var_registers x <<< 1) % 256) ∧
      (s.exec_8xye x y).var_registers 0xF = (s.var_registers x &&& 0x80) >>> 7) := by
  unfold Emulator.exec_8xy6 Emulator.exec_8xye
  constructor
  · intro hq
    rw [hq]
    dsimp only
    refine ⟨?_, ?_, ?_, ?_, ?_, ?_⟩
    · intro hx; rw [updateFn_ne _ _ _ _ hx, updateFn_self]; simp
    · rw [updateFn_self]; simp
    · intro hyx hy15; rw [updateFn_ne _ _ _ _ hy15, updateFn_ne _ _ _ _ hyx]
    · intro hx; rw [updateFn_ne _ _ _ _ hx, updateFn_self]; simp
    · rw [updateFn_self]; simp
    · intro hyx hy15; rw [updateFn_ne _ _ _ _ hy15, updateFn_ne _ _ _ _ hyx]
  · intro hq
    rw [hq]
    dsimp only
    refine ⟨fun y2 => ⟨by simp, by simp⟩, ?_, ?_, ?_, ?_⟩
    · intro hx; rw [updateFn_ne _ _ _ _ hx, updateFn_self]; simp
    · rw [updateFn_self]; simp
    · intro hx; rw [updateFn_ne _ _ _ _ hx, updateFn_self]; simp
    · rw [updateFn_self]; simp

/-- State with `V0 = 2` under the original-shift quirk. -/
def c6Same : Emulator := { emu0 with var_registers := updateFn (fun _ => 0) 0 2 }

/-- C6 counterexample: with the quirk enabled and `x = y = 0`, `V0 = 2`,
`SHR` overwrites register `x = y` with the shifted value 1, so register `y`
is not unchanged as the claim states. -/
theorem shr_changes_y_register_counterexample :
    c6Same.op_shift_original = true ∧ c6Same.var_registers 0 = 2 ∧
    (c6Same.exec_8xy6 0 0).var_registers 0 = 1 ∧ (1 : Nat) ≠ 2 := by
  refine ⟨rfl, rfl, rfl, by decide⟩

/-- State with `V0 = 0`, `V1 = 3` under the original-shift quirk. -/
def c6Quirk : Emulator :=
  { emu0 with var_registers := updateFn (updateFn (fun _ => 0) 0 0) 1 3 }

/-- Same registers with the quirk disabled. -/
def c6NoQuirk : Emulator := { c6Quirk with op_shift_original := false }

/-- C6 witness: quirk enabled, `SHR` with `vx = 0`, `vy = 3` makes `vx = 1`
with `VF = 1` and leaves `vy = 3`; quirk disabled, the instruction ignores
`y` entirely and shifts `vx = 0` in place. -/
theorem shift_source_quirk_semantics_witness :
    ((c6Quirk.exec_8xy6 0 1).var_registers 0 = 0x01 ∧
     (c6Quirk.exec_8xy6 0 1).var_registers 15 = 1 ∧
     (c6Quirk.exec_8xy6 0 1).var_registers 1 = 3) ∧
    (c6NoQuirk.exec_8xy6 0 1 = c6NoQuirk.exec_8xy6 0 9 ∧
     (c6NoQuirk.exec_8xy6 0 1).var_registers 0 = 0) := by
  have h1 := (shift_source_quirk_semantics c6Quirk 0 1).1 rfl
  have h2 := (shift_source_quirk_semantics c6NoQuirk 0 1).2 rfl
  refine ⟨⟨?_, ?_, ?_⟩, ?_, ?_⟩
  · rw [h1.1 (by decide)]; decide
  · rw [h1.2.1]; decide
  · rw [h1.2.2.1 (by decide) (by decide)]; decide
  · exact (h2.1 9).1
  · rw [h2.2.1 (by decide)]; decide

/-- C8: the return instruction with a non-empty stack pops the most recently
pushed address into the pc and removes it; with an empty stack the
`stack.pop().unwrap()` panic is a deterministic fatal halt of the
interpreter, modelled as the `stackUnderflow` error that aborts the cycle
burst. -/
theorem ret_pops_most_recent_or_halts (s : Emulator) :
    (s.stack = [] → s.exec_00ee = .error .stackUnderflow) ∧
    (∀ a rest, s.stack = a :: rest → s.exec_00ee = .ok { s with pc := a, stack := rest }) ∧
    (∀ nnn, (s.exec_2nnn nnn).exec_00ee = .ok s) := by
  refine ⟨?_, ?_, ?_⟩
  · intro h
    unfold Emulator.exec_00ee
    rw [h]
  · intro a rest h
    unfold Emulator.exec_00ee
    rw [h]
  · intro nnn
    rfl

/-- Stack with two return addresses, `0x234` on top. -/
def c8S : Emulator := { emu0 with stack := [0x234, 0x111] }

/-- C8 witness. -/
theorem ret_pops_most_recent_or_halts_witness :
    (emu0.exec_00ee = .error .stackUnderflow) ∧
    (c8S.exec_00ee = .ok { c8S with pc := 0x234, stack := [0x111] }) ∧
    ((emu0.exec_2nnn 0x300).exec_00ee = .ok emu0) := by
  exact ⟨(ret_pops_most_recent_or_halts emu0).1 rfl,
    (ret_pops_most_recent_or_halts c8S).2.1 0x234 [0x111] rfl,
    (ret_pops_most_recent_or_halts emu0).2.2 0x300⟩

theorem soundTicks_sound_timer (s : Emulator) :
    ∀ k, (soundTicks s k).sound_timer = s.sound_timer - k := by
  intro k
  induction k with
  | zero => rfl
  | succ k ih =>
    show ((soundTicks s k).update_sound_timer).sound_timer = s.sound_timer - (k + 1)
    unfold Emulator.update_sound_timer
    split
    · dsimp only; omega
    · dsimp only; omega

theorem soundTicks_playing (s : Emulator) (k : Nat) :
    (soundTicks s (k + 1)).audio_playing = decide (0 < s.sound_timer - k) := by
  show ((soundTicks s k).update_sound_timer).audio_playing = decide (0 < s.sound_timer - k)
  unfold Emulator.update_sound_timer
  have ht := soundTicks_sound_timer s k
  split
  · rename_i hc
    rw [ht] at hc
    dsimp only
    simp [hc]
  · rename_i hc
    rw [ht] at hc
    dsimp only
    simp
    omega

/-- C10: construction initializes both timers to 60 (not 0), pc to 0x200, an
empty stack and zero registers; consequently the first 60 sound-timer frame
ticks keep the audio gate on, and from the 61st tick on it is paused. -/
theorem new_timers_start_at_sixty (cr : Nat) (q1 q2 q3 : Bool) (frame0 : Nat → Bool) :
    (Emulator.new cr q1 q2 q3 frame0).delay_timer = 60 ∧
    (Emulator.new cr q1 q2 q3 frame0).sound_timer = 60 ∧
    (Emulator.new cr q1 q2 q3 frame0).pc = 0x200 ∧
    (Emulator.new cr q1 q2 q3 frame0).stack = [] ∧
    (∀ i, (Emulator.new cr q1 q2 q3 frame0).var_registers i = 0) ∧
    (∀ k, k < 60 →
      (soundTicks (Emulator.new cr q1 q2 q3 frame0) (k + 1)).audio_playing = true) ∧
    (∀ k, 60 ≤ k →
      (soundTicks (Emulator.new cr q1 q2 q3 frame0) (k + 1)).audio_playing = false) := by
  refine ⟨rfl, rfl, rfl, rfl, fun i => rfl, ?_, ?_⟩
  · intro k hk
    rw [soundTicks_playing]
    show decide (0 < 60 - k) = true
    simp
    omega
  · intro k hk
    rw [soundTicks_playing]
    show decide (0 < 60 - k) = false
    simp
    omega

/-- C10 witness. -/
theorem new_timers_start_at_sixty_witness :
    (Emulator.new 700 true true false (fun _ => false)).sound_timer = 60 ∧
    (soundTicks (Emulator.new 700 true true false (fun _ => false)) 1).audio_playing = true ∧
    (soundTicks (Emulator.new 700 true true false (fun _ => false)) 60).audio_playing = true ∧
    (soundTicks (Emulator.new 700 true true false (fun _ => false)) 61).audio_playing = false := by
  have h := new_timers_start_at_sixty 700 true true false (fun _ => false)
  exact ⟨h.2.1, h.2.2.2.2.2.1 0 (by norm_num), h.2.2.2.2.2.1 59 (by norm_num),
    h.2.2.2.2.2.2 60 (by norm_num)⟩

/-- C3 amended. -/
theorem effective_address_checks (s : Emulator) (x : Nat) :
    (s.pc + 1 < 4096 →
      s.fetch = .ok ({ s with pc := s.pc + 2 },
        ((s.memory s.pc) <<< 8) ||| s.memory (s.pc + 1))) ∧
    (4096 ≤ s.pc → s.fetch = .error (.outOfBounds s.pc)) ∧
    (s.pc = 4095 → s.fetch = .error (.outOfBounds 4096)) ∧
    (4096 ≤ s.index_register → s.index_register < 65536 →
      s.exec_fx55 x = .error (.outOfBounds s.index_register) ∧
      s.exec_fx65 x = .error (.outOfBounds s.index_register)) ∧
    (s.exec_fx1e x).index_register = (s.index_register + s.var_registers x) % 65536 := by
  refine ⟨?_, ?_, ?_, ?_, rfl⟩
  · intro h
    have h2 := fetch_ok_of_lt s h
    rw [Nat.mod_eq_of_lt (by omega : s.pc + 2 < 65536)] at h2
    exact h2
  · intro h
    unfold Emulator.fetch memRead
    rw [if_neg (by simp only [RAM_SIZE]; omega)]
  · intro h
    unfold Emulator.fetch memRead
    rw [if_pos (by simp only [RAM_SIZE]; omega), h]
    norm_num
  · intro h1 h2
    constructor
    · unfold Emulator.exec_fx55 storeLoop
      rw [Nat.add_zero, Nat.mod_eq_of_lt h2]
      unfold memWrite
      rw [if_neg (by simp only [RAM_SIZE]; omega)]
    · unfold Emulator.exec_fx65 loadLoop
      rw [Nat.add_zero, Nat.mod_eq_of_lt h2]
      unfold memRead
      rw [if_neg (by simp only [RAM_SIZE]; omega)]

/-- State whose index register is at the top of the 16-bit range with
`V0 = 2`, and a marker byte in RAM cell 1. -/
def c3Wrap : Emulator :=
  { emu0 with
    index_register := 65535
    var_registers := updateFn (fun _ => 0) 0 2
    memory := updateFn emu0.memory 1 0xAB }

/-- C3 counterexample: `FX1E` adds `V0 = 2` to the index register 65535; the
conceptual effective address 65537 is past the end of RAM, yet no error is
raised — the 16-bit add silently wraps the index to 1, and a following
`FX65` then reads RAM cell 1. -/
theorem index_add_wraps_silently_counterexample :
    65536 ≤ c3Wrap.index_register + c3Wrap.var_registers 0 ∧
    4096 ≤ c3Wrap.index_register + c3Wrap.var_registers 0 ∧
    (c3Wrap.exec_fx1e 0).index_register = 1 ∧
    obsReg 0 ((c3Wrap.exec_fx1e 0).exec_fx65 0) = some 0xAB := by
  refine ⟨by decide, by decide, rfl, rfl⟩

/-- State whose pc is far out of RAM bounds. -/
def c3Oob : Emulator := { emu0 with pc := 5000 }

/-- State whose pc points at the last RAM byte, so the second fetched byte is
out of bounds. -/
def c3Edge : Emulator := { emu0 with pc := 4095 }

/-- State whose index register points just past the end of RAM. -/
def c3IdxOob : Emulator := { emu0 with index_register := 4096 }

/-- C3 witness. -/
theorem effective_address_checks_witness :
    (emu0.fetch = .ok ({ emu0 with pc := emu0.pc + 2 },
      ((emu0.memory emu0.pc) <<< 8) ||| emu0.memory (emu0.pc + 1))) ∧
    (c3Oob.fetch = .error (.outOfBounds c3Oob.pc)) ∧
    (c3Edge.fetch = .error (.outOfBounds 4096)) ∧
    (c3IdxOob.exec_fx55 3 = .error (.outOfBounds c3IdxOob.index_register) ∧
     c3IdxOob.exec_fx65 3 = .error (.outOfBounds c3IdxOob.index_register)) := by
  exact ⟨(effective_address_checks emu0 0).1 (by decide),
    (effective_address_checks c3Oob 0).2.1 (by decide),
    (effective_address_checks c3Edge 0).2.2.1 (by decide),
    (effective_address_checks c3IdxOob 3).2.2.2.1 (by decide) (by decide)⟩

theorem storeLoop_spec (regs : Nat → Nat) (index : Nat) :
    ∀ fuel i mem, index + i + fuel ≤ 4096 →
      ∃ mem2, storeLoop regs index i fuel mem = .ok mem2 ∧
        (∀ k, k < fuel → mem2 (index + (i + k)) = regs (i + k)) ∧
        (∀ a, (∀ k, k < fuel → a ≠ index + (i + k)) → mem2 a = mem a) := by
  intro fuel
  induction fuel with
  | zero =>
    intro i mem _
    exact ⟨mem, rfl, fun k hk => absurd hk (Nat.not_lt_zero k), fun a _ => rfl⟩
  | succ fuel ih =>
    intro i mem h
    unfold storeLoop
    rw [Nat.mod_eq_of_lt (by omega : index + i < 65536)]
    unfold memWrite
    rw [if_pos (by simp only [RAM_SIZE]; omega : index + i < RAM_SIZE)]
    obtain ⟨mem2, hrun, hin, hout⟩ :=
      ih (i + 1) (updateFn mem (index + i) (regs i)) (by omega)
    refine ⟨mem2, hrun, ?_, ?_⟩
    · intro k hk
      cases k with
      | zero =>
        rw [Nat.add_zero]
        rw [hout (index + i) (fun k2 hk2 => by omega)]
        exact updateFn_self _ _ _
      | succ k =>
        rw [(by omega : i + (k + 1) = i + 1 + k)]
        exact hin k (by omega)
    · intro a ha
      rw [hout a (fun k hk => by
        have := ha (k + 1) (by omega)
        omega)]
      exact updateFn_ne _ _ _ _ (by have := ha 0 (by omega); omega)

theorem loadLoop_spec (mem : Nat → Nat) (index : Nat) :
    ∀ fuel i regs, index + i + fuel ≤ 4096 →
      ∃ regs2, loadLoop mem index i fuel regs = .ok regs2 ∧
        (∀ k, k < fuel → regs2 (i + k) = mem (index + (i + k))) ∧
        (∀ j, (∀ k, k < fuel → j ≠ i + k) → regs2 j = regs j) := by
  intro fuel
  induction fuel with
  | zero =>
    intro i regs _
    exact ⟨regs, rfl, fun k hk => absurd hk (Nat.not_lt_zero k), fun j _ => rfl⟩
  | succ fuel ih =>
    intro i regs h
    unfold loadLoop
    rw [Nat.mod_eq_of_lt (by omega : index + i < 65536)]
    unfold memRead
    rw [if_pos (by simp only [RAM_SIZE]; omega : index + i < RAM_SIZE)]
    obtain ⟨regs2, hrun, hin, hout⟩ :=
      ih (i + 1) (updateFn regs i (mem (index + i))) (by omega)
    refine ⟨regs2, hrun, ?_, ?_⟩
    · intro k hk
      cases k with
      | zero =>
        rw [Nat.add_zero]
        rw [hout i (fun k2 hk2 => by omega)]
        exact updateFn_self _ _ _
      | succ k =>
        rw [(by omega : i + (k + 1) = i + 1 + k)]
        exact hin k (by omega)
    · intro j hj
      rw [hout j (fun k hk => by
        have := hj (k + 1) (by omega)
        omega)]
      exact updateFn_ne _ _ _ _ (by have := hj 0 (by omega); omega)

/-- C7: for any register snapshot, range bound and in-bounds index, FX55
copies registers `0..=x` to memory at the index, FX65 copies them back, a
store followed by a load at the same index value reproduces the registers,
and after either transfer the index advances by `x + 1` under the store/load
quirk and is unchanged otherwise. -/
theorem store_load_roundtrip (s : Emulator) (x : Nat) (hx : x ≤ 15)
    (hidx : s.index_register + x < 4096) :
    ∃ s1 s2, s.exec_fx55 x = .ok s1 ∧
      (∀ i, i ≤ x → s1.memory (s.index_register + i) = s.var_registers i) ∧
      (∀ a, (∀ i, i ≤ x → a ≠ s.index_register + i) → s1.memory a = s.memory a) ∧
      s1.var_registers = s.var_registers ∧
      s1.index_register = (if s.op_store_and_load_original
        then s.index_register + x + 1 else s.index_register) ∧
      Emulator.exec_fx65 { s1 with index_register := s.index_register } x = .ok s2 ∧
      (∀ i, s2.var_registers i = s.var_registers i) ∧
      s2.index_register = (if s.op_store_and_load_original
        then s.index_register + x + 1 else s.index_register) := by
  obtain ⟨mem2, hrun, hin, hout⟩ :=
    storeLoop_spec s.var_registers s.index_register (x + 1) 0 s.memory (by omega)
  have hstore : s.exec_fx55 x = .ok
      { s with
        memory := mem2
        index_register :=
          if s.op_store_and_load_original
          then (s.index_register + x + 1) % 65536
          else s.index_register } := by
    unfold Emulator.exec_fx55
    rw [hrun]
  obtain ⟨regs2, hrun2, hin2, hout2⟩ :=
    loadLoop_spec mem2 s.index_register (x + 1) 0 s.var_registers (by omega)
  have hmodq : (if s.op_store_and_load_original
      then (s.index_register + x + 1) % 65536
      else s.index_register) = (if s.op_store_and_load_original
      then s.index_register + x + 1 else s.index_register) := by
    rw [Nat.mod_eq_of_lt (by omega)]
  have hload : Emulator.exec_fx65
      { s with memory := mem2, index_register := s.index_register } x = .ok
      { s with
        memory := mem2
        var_registers := regs2
        index_register :=
          if s.op_store_and_load_original
          then (s.index_register + x + 1) % 65536
          else s.index_register } := by
    unfold Emulator.exec_fx65
    dsimp only
    rw [hrun2]
  refine ⟨{ s with
            memory := mem2
            index_register :=
              if s.op_store_and_load_original
              then (s.index_register + x + 1) % 65536
              else s.index_register },
          { s with
            memory := mem2
            var_registers := regs2
            index_register :=
              if s.op_store_and_load_original
              then (s.index_register + x + 1) % 65536
              else s.index_register },
          hstore, ?_, ?_, rfl, hmodq, hload, ?_, hmodq⟩
  · intro i hi
    have h1 := hin i (by omega)
    rw [Nat.zero_add] at h1
    exact h1
  · intro a ha
    exact hout a (fun k hk => by
      have := ha k (by omega)
      omega)
  · intro i
    by_cases hi : i ≤ x
    · have h1 := hin2 i (by omega)
      rw [Nat.zero_add] at h1
      have h2 := hin i (by omega)
      rw [Nat.zero_add] at h2
      show regs2 i = s.var_registers i
      rw [h1, h2]
    · exact hout2 i (fun k hk => by omega)

/-- Quirk-enabled state with a register snapshot to round-trip. -/
def c7S : Emulator :=
  { emu0 with
    index_register := 0x400
    op_store_and_load_original := true
    var_registers := updateFn (updateFn (fun _ => 0) 0 10) 3 99 }

/-- C7 witness: the round-trip theorem applied at a concrete quirk-enabled
state with range bound 3 and index `0x400`. -/
theorem store_load_roundtrip_witness :
    ∃ s1 s2, c7S.exec_fx55 3 = .ok s1 ∧
      (∀ i, i ≤ 3 → s1.memory (c7S.index_register + i) = c7S.var_registers i) ∧
      (∀ a, (∀ i, i ≤ 3 → a ≠ c7S.index_register + i) → s1.memory a = c7S.memory a) ∧
      s1.var_registers = c7S.var_registers ∧
      s1.index_register = (if c7S.op_store_and_load_original
        then c7S.index_register + 3 + 1 else c7S.index_register) ∧
      Emulator.exec_fx65 { s1 with index_register := c7S.index_register } 3 = .ok s2 ∧
      (∀ i, s2.var_registers i = c7S.var_registers i) ∧
      s2.index_register = (if c7S.op_store_and_load_original
        then c7S.index_register + 3 + 1 else c7S.index_register) :=
  store_load_roundtrip c7S 3 (by decide) (by decide)

theorem decode_preserves_timers (s s2 : Emulator) (inst rand : Nat)
    (hnw : timer_write_inst inst = false)
    (h : s.decode_and_execute inst rand = .ok s2) :
    s2.delay_timer = s.delay_timer ∧ s2.sound_timer = s.sound_timer := by
  unfold Emulator.decode_and_execute at h
  refine dispatchOp_timers s s2 _ _ _ _ _ _ _ ?_ h
  rintro ⟨h1, h2, h3⟩
  unfold timer_write_inst at hnw
  rw [h1, h2] at hnw
  rcases h3 with h3 | h3 <;> rw [h3] at hnw <;> simp at hnw

theorem update_sound_timer_delay (t : Emulator) :
    (t.update_sound_timer).delay_timer = t.delay_timer := by
  unfold Emulator.update_sound_timer
  split <;> rfl

theorem update_delay_timer_sound (t : Emulator) :
    (t.update_delay_timer).sound_timer = t.sound_timer := by
  unfold Emulator.update_delay_timer
  split <;> rfl

theorem update_delay_timer_eq (t : Emulator) :
    (t.update_delay_timer).delay_timer =
      (if 0 < t.delay_timer then t.delay_timer - 1 else 0) := by
  unfold Emulator.update_delay_timer
  split
  · rfl
  · omega

theorem update_sound_timer_eq (t : Emulator) :
    (t.update_sound_timer).sound_timer =
      (if 0 < t.sound_timer then t.sound_timer - 1 else 0) := by
  unfold Emulator.update_sound_timer
  split
  · rfl
  · show t.sound_timer = 0
    omega

theorem execute_cycles_preserves_timers :
    ∀ (cycles : Nat) (s s2 : Emulator) (rands : Nat → Nat),
      burstAvoidsTimerWrites s cycles rands →
      execute_cycles s cycles rands = .ok s2 →
      s2.delay_timer = s.delay_timer ∧ s2.sound_timer = s.sound_timer := by
  intro cycles
  induction cycles with
  | zero =>
    intro s s2 rands _ h
    cases h
    exact ⟨rfl, rfl⟩
  | succ k ih =>
    intro s s2 rands hb h
    unfold execute_cycles at h
    unfold burstAvoidsTimerWrites at hb
    cases hf : s.fetch with
    | error e =>
      rw [hf] at h
      exact absurd h (by simp)
    | ok p =>
      obtain ⟨s1, inst⟩ := p
      rw [hf] at h hb
      dsimp only at h hb
      obtain ⟨hnw, hb2⟩ := hb
      cases hd : s1.decode_and_execute inst (rands 0) with
      | error e =>
        rw [hd] at h
        exact absurd h (by simp)
      | ok s3 =>
        rw [hd] at h hb2
        dsimp only at h hb2
        obtain ⟨hp1, hs1, _⟩ := fetch_ok_inv s s1 inst hf
        have ht1 : s1.delay_timer = s.delay_timer ∧ s1.sound_timer = s.sound_timer := by
          rw [hs1]; exact ⟨rfl, rfl⟩
        have ht2 := decode_preserves_timers s1 s3 inst (rands 0) hnw hd
        have ht3 := ih s3 s2 _ hb2 h
        exact ⟨by rw [ht3.1, ht2.1, ht1.1], by rw [ht3.2, ht2.2, ht1.2]⟩

/-- C9: instruction execution never decrements a timer — any instruction that
is not a timer write `FX15`/`FX18` leaves both timers unchanged — and each
controller frame iteration, regardless of how many instructions its burst
ran, decrements each timer by exactly 1 when it is nonzero and leaves it at 0
otherwise. -/
theorem timers_decoupled_from_instruction_rate :
    (∀ (s s2 : Emulator) (inst rand : Nat), timer_write_inst inst = false →
       s.decode_and_execute inst rand = .ok s2 →
       s2.delay_timer = s.delay_timer ∧ s2.sound_timer = s.sound_timer) ∧
    (∀ s : Emulator,
       (s.update_delay_timer).delay_timer =
         (if 0 < s.delay_timer then s.delay_timer - 1 else 0) ∧
       (s.update_sound_timer).sound_timer =
         (if 0 < s.sound_timer then s.sound_timer - 1 else 0)) ∧
    (∀ (s s2 : Emulator) (cycles : Nat) (rands : Nat → Nat),
       burstAvoidsTimerWrites s cycles rands →
       frameCore s cycles rands = .ok s2 →
       s2.delay_timer = (if 0 < s.delay_timer then s.delay_timer - 1 else 0) ∧
       s2.sound_timer = (if 0 < s.sound_timer then s.sound_timer - 1 else 0)) := by
  refine ⟨fun s s2 inst rand hnw h => decode_preserves_timers s s2 inst rand hnw h,
    fun s => ⟨update_delay_timer_eq s, update_sound_timer_eq s⟩, ?_⟩
  intro s s2 cycles rands hb h
  unfold frameCore at h
  cases hr : execute_cycles s cycles rands with
  | error e =>
    rw [hr] at h
    exact absurd h (by simp)
  | ok s1 =>
    rw [hr] at h
    cases h
    have ht := execute_cycles_preserves_timers cycles s s1 rands hb hr
    constructor
    · rw [update_delay_timer_eq, update_sound_timer_delay, ht.1]
    · rw [update_delay_timer_sound, update_sound_timer_eq, ht.2]

/-- C9 witness: one frame iteration of the fresh emulator whose single-cycle
burst executes the instruction 0x0000 (reported unknown, state unchanged):
both timers go from 60 to 59. -/
theorem timers_decoupled_witness :
    ∃ s2, frameCore emu0 1 (fun _ => 0) = .ok s2 ∧
      s2.delay_timer = 59 ∧ s2.sound_timer = 59 := by
  have h := timers_decoupled_from_instruction_rate.2.2 emu0 _ 1 (fun _ => 0)
    ⟨rfl, trivial⟩ rfl
  exact ⟨_, rfl, by rw [h.1]; decide, by rw [h.2]; decide⟩

open Classical in
theorem drawCols_spec (vx row sd : Nat) :
    ∀ fuel j frame vf, vx + j ≤ 64 →
      (∀ p, (drawCols vx row sd j fuel frame vf).1 p =
        if ∃ k, j ≤ k ∧ k < j + fuel ∧ vx + k < 64 ∧ ((sd >>> (7 - k)) &&& 1) = 1 ∧
            p = (vx + k) + row * 64
        then ! frame p else frame p) ∧
      (drawCols vx row sd j fuel frame vf).2 =
        (if ∃ k, j ≤ k ∧ k < j + fuel ∧ vx + k < 64 ∧ ((sd >>> (7 - k)) &&& 1) = 1 ∧
            frame ((vx + k) + row * 64) = true
        then 1 else vf) := by
  intro fuel
  induction fuel with
  | zero =>
    intro j frame vf hj
    constructor
    · intro p
      rw [if_neg (by rintro ⟨k, h1, h2, h3⟩; omega)]
      rfl
    · rw [if_neg (by rintro ⟨k, h1, h2, h3⟩; omega)]
      rfl
  | succ fuel ih =>
    intro j frame vf hj
    by_cases hedge : vx + j = 64
    · have h64 : vx + j = 64 := hedge
      have hbreak : drawCols vx row sd j (fuel + 1) frame vf = (frame, vf) := by
        rw [drawCols]
        simp only [DISPLAY_WIDTH]
        rw [if_pos hedge]
      constructor
      · intro p
        rw [hbreak, if_neg (by rintro ⟨k, h1, h2, h3, h4⟩; omega)]
      · rw [hbreak, if_neg (by rintro ⟨k, h1, h2, h3, h4⟩; omega)]
    · have h64 : vx + j ≠ 64 := hedge
      have hlt : vx + j < 64 := by omega
      have hstep : drawCols vx row sd j (fuel + 1) frame vf =
          if (frame (vx + j + row * 64) = true) ∧
              ((sd >>> (7 - j)) &&& 1) = 1 then
            drawCols vx row sd (j + 1) fuel
              (fun a => if a = vx + j + row * 64 then false else frame a) 1
          else if ¬(frame (vx + j + row * 64) = true) ∧
              ((sd >>> (7 - j)) &&& 1) = 1 then
            drawCols vx row sd (j + 1) fuel
              (fun a => if a = vx + j + row * 64 then true else frame a) vf
          else drawCols vx row sd (j + 1) fuel frame vf := by
        rw [drawCols]
        simp only [DISPLAY_WIDTH]
        rw [if_neg hedge]
      rw [hstep]
      by_cases hs : ((sd >>> (7 - j)) &&& 1) = 1
      · by_cases hd : frame (vx + j + row * 64) = true
        · rw [if_pos ⟨hd, hs⟩]
          obtain ⟨ihp, ihv⟩ := ih (j + 1)
            (fun a => if a = vx + j + row * 64 then false else frame a) 1
            (by omega)
          constructor
          · intro p
            rw [ihp p]
            by_cases hp : p = vx + j + row * 64
            · subst hp
              rw [if_neg (by rintro ⟨k, hk1, hk2, hk3, hk4, hk5⟩; omega)]
              have hxc : ∃ k, j ≤ k ∧ k < j + (fuel + 1) ∧ vx + k < 64 ∧
                  ((sd >>> (7 - k)) &&& 1) = 1 ∧
                  vx + j + row * 64 = (vx + k) + row * 64 :=
                ⟨j, Nat.le_refl j, by omega, hlt, hs, rfl⟩
              rw [if_pos hxc]
              rw [hd]
              simp
            ·
              have hiff : (∃ k, j + 1 ≤ k ∧ k < j + 1 + fuel ∧ vx + k < 64 ∧
                  ((sd >>> (7 - k)) &&& 1) = 1 ∧ p = (vx + k) + row * 64) ↔
                  (∃ k, j ≤ k ∧ k < j + (fuel + 1) ∧ vx + k < 64 ∧
                  ((sd >>> (7 - k)) &&& 1) = 1 ∧ p = (vx + k) + row * 64) := by
                constructor
                · rintro ⟨k, hk1, hk2, hk3, hk4, hk5⟩
                  exact ⟨k, by omega, by omega, hk3, hk4, hk5⟩
                · rintro ⟨k, hk1, hk2, hk3, hk4, hk5⟩
                  refine ⟨k, ?_, by omega, hk3, hk4, hk5⟩
                  rcases Nat.lt_or_ge j k with hjk | hjk
                  · omega
                  · exfalso; apply hp; omega
              rw [if_neg hp, hiff]
          · have hxc : ∃ k, j ≤ k ∧ k < j + (fuel + 1) ∧ vx + k < 64 ∧
                ((sd >>> (7 - k)) &&& 1) = 1 ∧
                frame ((vx + k) + row * 64) = true :=
              ⟨j, Nat.le_refl j, by omega, hlt, hs, hd⟩
            rw [ihv, ite_self, if_pos hxc]
        · rw [if_neg (fun hcon => hd hcon.1), if_pos ⟨hd, hs⟩]
          obtain ⟨ihp, ihv⟩ := ih (j + 1)
            (fun a => if a = vx + j + row * 64 then true else frame a) vf
            (by omega)
          constructor
          · intro p
            rw [ihp p]
            by_cases hp : p = vx + j + row * 64
            · subst hp
              rw [if_neg (by rintro ⟨k, hk1, hk2, hk3, hk4, hk5⟩; omega)]
              have hxc : ∃ k, j ≤ k ∧ k < j + (fuel + 1) ∧ vx + k < 64 ∧
                  ((sd >>> (7 - k)) &&& 1) = 1 ∧
                  vx + j + row * 64 = (vx + k) + row * 64 :=
                ⟨j, Nat.le_refl j, by omega, hlt, hs, rfl⟩
              rw [if_pos hxc]
              rw [Bool.not_eq_true] at hd
              rw [hd]
              simp
            ·
              have hiff : (∃ k, j + 1 ≤ k ∧ k < j + 1 + fuel ∧ vx + k < 64 ∧
                  ((sd >>> (7 - k)) &&& 1) = 1 ∧ p = (vx + k) + row * 64) ↔
                  (∃ k, j ≤ k ∧ k < j + (fuel + 1) ∧ vx + k < 64 ∧
                  ((sd >>> (7 - k)) &&& 1) = 1 ∧ p = (vx + k) + row * 64) := by
                constructor
                · rintro ⟨k, hk1, hk2, hk3, hk4, hk5⟩
                  exact ⟨k, by omega, by omega, hk3, hk4, hk5⟩
                · rintro ⟨k, hk1, hk2, hk3, hk4, hk5⟩
                  refine ⟨k, ?_, by omega, hk3, hk4, hk5⟩
                  rcases Nat.lt_or_ge j k with hjk | hjk
                  · omega
                  · exfalso; apply hp; omega
              rw [if_neg hp, hiff]
          · rw [ihv]
            have hiff : (∃ k, j + 1 ≤ k ∧ k < j + 1 + fuel ∧ vx + k < 64 ∧
                ((sd >>> (7 - k)) &&& 1) = 1 ∧
                (if (vx + k) + row * 64 = vx + j + row * 64
                 then true else frame ((vx + k) + row * 64)) = true) ↔
                (∃ k, j ≤ k ∧ k < j + (fuel + 1) ∧ vx + k < 64 ∧
                ((sd >>> (7 - k)) &&& 1) = 1 ∧
                frame ((vx + k) + row * 64) = true) := by
              constructor
              · rintro ⟨k, hk1, hk2, hk3, hk4, hk5⟩
                rw [if_neg (by omega : ¬ (vx + k) + row * 64 =
                  vx + j + row * 64)] at hk5
                exact ⟨k, by omega, by omega, hk3, hk4, hk5⟩
              · rintro ⟨k, hk1, hk2, hk3, hk4, hk5⟩
                have hkj : k ≠ j := by
                  rintro rfl
                  exact hd hk5
                refine ⟨k, by omega, by omega, hk3, hk4, ?_⟩
                rw [if_neg (by omega : ¬ (vx + k) + row * 64 =
                  vx + j + row * 64)]
                exact hk5
            rw [hiff]
      · rw [if_neg (fun hcon => hs hcon.2), if_neg (fun hcon => hs hcon.2)]
        obtain ⟨ihp, ihv⟩ := ih (j + 1) frame vf (by omega)
        constructor
        · intro p
          rw [ihp p]
          have hiff : (∃ k, j + 1 ≤ k ∧ k < j + 1 + fuel ∧ vx + k < 64 ∧
              ((sd >>> (7 - k)) &&& 1) = 1 ∧ p = (vx + k) + row * 64) ↔
              (∃ k, j ≤ k ∧ k < j + (fuel + 1) ∧ vx + k < 64 ∧
              ((sd >>> (7 - k)) &&& 1) = 1 ∧ p = (vx + k) + row * 64) := by
            constructor
            · rintro ⟨k, hk1, hk2, hk3, hk4, hk5⟩
              exact ⟨k, by omega, by omega, hk3, hk4, hk5⟩
            · rintro ⟨k, hk1, hk2, hk3, hk4, hk5⟩
              have hkj : k ≠ j := by
                rintro rfl
                exact hs hk4
              exact ⟨k, by omega, by omega, hk3, hk4, hk5⟩
          rw [hiff]
        · rw [ihv]
          have hiff : (∃ k, j + 1 ≤ k ∧ k < j + 1 + fuel ∧ vx + k < 64 ∧
              ((sd >>> (7 - k)) &&& 1) = 1 ∧
              frame ((vx + k) + row * 64) = true) ↔
              (∃ k, j ≤ k ∧ k < j + (fuel + 1) ∧ vx + k < 64 ∧
              ((sd >>> (7 - k)) &&& 1) = 1 ∧
              frame ((vx + k) + row * 64) = true) := by
            constructor
            · rintro ⟨k, hk1, hk2, hk3, hk4, hk5⟩
              exact ⟨k, by omega, by omega, hk3, hk4, hk5⟩
            · rintro ⟨k, hk1, hk2, hk3, hk4, hk5⟩
              have hkj : k ≠ j := by
                rintro rfl
                exact hs hk4
              exact ⟨k, by omega, by omega, hk3, hk4, hk5⟩
          rw [hiff]

open Classical in
theorem drawRows_spec (mem : Nat → Nat) (index vx vy : Nat) (hvx : vx < 64) :
    ∀ fuel i frame vf, vy + i ≤ 32 → index + i + fuel ≤ 4096 →
      ∃ frame2 vf2, drawRows mem index vx vy i fuel frame vf = .ok (frame2, vf2) ∧
        (∀ p, frame2 p =
          if ∃ r k, r < fuel ∧ vy + (i + r) < 32 ∧ k < 8 ∧ vx + k < 64 ∧
              ((mem (index + (i + r)) >>> (7 - k)) &&& 1) = 1 ∧
              p = (vx + k) + (vy + (i + r)) * 64
          then ! frame p else frame p) ∧
        vf2 = (if ∃ r k, r < fuel ∧ vy + (i + r) < 32 ∧ k < 8 ∧ vx + k < 64 ∧
              ((mem (index + (i + r)) >>> (7 - k)) &&& 1) = 1 ∧
              frame ((vx + k) + (vy + (i + r)) * 64) = true
          then 1 else vf) := by
  intro fuel
  induction fuel with
  | zero =>
    intro i frame vf hy hb
    refine ⟨frame, vf, rfl, ?_, ?_⟩
    · intro p
      rw [if_neg (by rintro ⟨r, k, h1, h2⟩; omega)]
    · rw [if_neg (by rintro ⟨r, k, h1, h2⟩; omega)]
  | succ fuel ih =>
    intro i frame vf hy hb
    by_cases hstop : vy + i = 32
    · have hrun : drawRows mem index vx vy i (fuel + 1) frame vf = .ok (frame, vf) := by
        rw [drawRows]
        simp only [DISPLAY_HEIGHT]
        rw [if_pos hstop]
      refine ⟨frame, vf, hrun, ?_, ?_⟩
      · intro p
        rw [if_neg (by rintro ⟨r, k, h1, h2, h3⟩; omega)]
      · rw [if_neg (by rintro ⟨r, k, h1, h2, h3⟩; omega)]
    · have hrow : vy + i < 32 := by omega
      have hmr : memRead mem ((index + i) % 65536) = .ok (mem (index + i)) := by
        rw [Nat.mod_eq_of_lt (by omega : index + i < 65536)]
        unfold memRead
        rw [if_pos (by simp only [RAM_SIZE]; omega)]
      have hstep : drawRows mem index vx vy i (fuel + 1) frame vf =
          drawRows mem index vx vy (i + 1) fuel
            (drawCols vx (vy + i) (mem (index + i)) 0 8 frame vf).1
            (drawCols vx (vy + i) (mem (index + i)) 0 8 frame vf).2 := by
        rw [drawRows]
        simp only [DISPLAY_HEIGHT]
        rw [if_neg hstop, hmr]
      obtain ⟨colp, colv⟩ :=
        drawCols_spec vx (vy + i) (mem (index + i)) 8 0 frame vf (by omega)
      obtain ⟨frame2, vf2, hrun2, ihp, ihv⟩ :=
        ih (i + 1) (drawCols vx (vy + i) (mem (index + i)) 0 8 frame vf).1
          (drawCols vx (vy + i) (mem (index + i)) 0 8 frame vf).2
          (by omega) (by omega)
      refine ⟨frame2, vf2, by rw [hstep]; exact hrun2, ?_, ?_⟩
      · intro p
        rw [ihp p]
        by_cases hP0 : ∃ k, 0 ≤ k ∧ k < 0 + 8 ∧ vx + k < 64 ∧
            ((mem (index + i) >>> (7 - k)) &&& 1) = 1 ∧ p = (vx + k) + (vy + i) * 64
        · have hP1 : ¬ ∃ r k, r < fuel ∧ vy + (i + 1 + r) < 32 ∧ k < 8 ∧ vx + k < 64 ∧
              ((mem (index + (i + 1 + r)) >>> (7 - k)) &&& 1) = 1 ∧
              p = (vx + k) + (vy + (i + 1 + r)) * 64 := by
            rintro ⟨r, k, hr1, hr2, hr3, hr4, hr5, hr6⟩
            obtain ⟨k0, hk0a, hk0b, hk0c, hk0d, hk0e⟩ := hP0
            omega
          have hPT : ∃ r k, r < fuel + 1 ∧ vy + (i + r) < 32 ∧ k < 8 ∧ vx + k < 64 ∧
              ((mem (index + (i + r)) >>> (7 - k)) &&& 1) = 1 ∧
              p = (vx + k) + (vy + (i + r)) * 64 := by
            obtain ⟨k0, hk0a, hk0b, hk0c, hk0d, hk0e⟩ := hP0
            exact ⟨0, k0, by omega, by omega, by omega, hk0c, hk0d, hk0e⟩
          rw [if_neg hP1, colp p, if_pos hP0, if_pos hPT]
        · by_cases hP1 : ∃ r k, r < fuel ∧ vy + (i + 1 + r) < 32 ∧ k < 8 ∧ vx + k < 64 ∧
              ((mem (index + (i + 1 + r)) >>> (7 - k)) &&& 1) = 1 ∧
              p = (vx + k) + (vy + (i + 1 + r)) * 64
          · have hF1 : (drawCols vx (vy + i) (mem (index + i)) 0 8 frame vf).1 p = frame p := by
              rw [colp p, if_neg hP0]
            have hPT : ∃ r k, r < fuel + 1 ∧ vy + (i + r) < 32 ∧ k < 8 ∧ vx + k < 64 ∧
                ((mem (index + (i + r)) >>> (7 - k)) &&& 1) = 1 ∧
                p = (vx + k) + (vy + (i + r)) * 64 := by
              obtain ⟨r, k, hr1, hr2, hr3, hr4, hr5, hr6⟩ := hP1
              have he : i + 1 + r = i + (r + 1) := by omega
              rw [he] at hr2 hr5 hr6
              exact ⟨r + 1, k, by omega, hr2, hr3, hr4, hr5, hr6⟩
            rw [if_pos hP1, hF1, if_pos hPT]
          · have hPT : ¬ ∃ r k, r < fuel + 1 ∧ vy + (i + r) < 32 ∧ k < 8 ∧ vx + k < 64 ∧
                ((mem (index + (i + r)) >>> (7 - k)) &&& 1) = 1 ∧
                p = (vx + k) + (vy + (i + r)) * 64 := by
              rintro ⟨r, k, h1, h2, h3, h4, h5, h6⟩
              cases r with
              | zero => exact hP0 ⟨k, by omega, by omega, h4, h5, h6⟩
              | succ r =>
                have he : i + (r + 1) = i + 1 + r := by omega
                rw [he] at h2 h5 h6
                exact hP1 ⟨r, k, by omega, h2, h3, h4, h5, h6⟩
            rw [if_neg hP1, colp p, if_neg hP0, if_neg hPT]
      · rw [ihv, colv]
        by_cases hP1 : ∃ r k, r < fuel ∧ vy + (i + 1 + r) < 32 ∧ k < 8 ∧ vx + k < 64 ∧
            ((mem (index + (i + 1 + r)) >>> (7 - k)) &&& 1) = 1 ∧
            (drawCols vx (vy + i) (mem (index + i)) 0 8 frame vf).1
              ((vx + k) + (vy + (i + 1 + r)) * 64) = true
        · have hPT : ∃ r k, r < fuel + 1 ∧ vy + (i + r) < 32 ∧ k < 8 ∧ vx + k < 64 ∧
              ((mem (index + (i + r)) >>> (7 - k)) &&& 1) = 1 ∧
              frame ((vx + k) + (vy + (i + r)) * 64) = true := by
            obtain ⟨r, k, h1, h2, h3, h4, h5, h6⟩ := hP1
            have hnot : ¬ ∃ k0, 0 ≤ k0 ∧ k0 < 0 + 8 ∧ vx + k0 < 64 ∧
                ((mem (index + i) >>> (7 - k0)) &&& 1) = 1 ∧
                (vx + k) + (vy + (i + 1 + r)) * 64 = (vx + k0) + (vy + i) * 64 := by
              rintro ⟨k0, hk0a, hk0b, hk0c, hk0d, hk0e⟩
              omega
            rw [colp _, if_neg hnot] at h6
            have he : i + 1 + r = i + (r + 1) := by omega
            rw [he] at h2 h5 h6
            exact ⟨r + 1, k, by omega, h2, h3, h4, h5, h6⟩
          rw [if_pos hP1, if_pos hPT]
        · rw [if_neg hP1]
          by_cases hP0 : ∃ k, 0 ≤ k ∧ k < 0 + 8 ∧ vx + k < 64 ∧
              ((mem (index + i) >>> (7 - k)) &&& 1) = 1 ∧
              frame ((vx + k) + (vy + i) * 64) = true
          · have hPT : ∃ r k, r < fuel + 1 ∧ vy + (i + r) < 32 ∧ k < 8 ∧ vx + k < 64 ∧
                ((mem (index + (i + r)) >>> (7 - k)) &&& 1) = 1 ∧
                frame ((vx + k) + (vy + (i + r)) * 64) = true := by
              obtain ⟨k0, hk0a, hk0b, hk0c, hk0d, hk0e⟩ := hP0
              exact ⟨0, k0, by omega, by omega, by omega, hk0c, hk0d, hk0e⟩
            rw [if_pos hP0, if_pos hPT]
          · have hPT : ¬ ∃ r k, r < fuel + 1 ∧ vy + (i + r) < 32 ∧ k < 8 ∧ vx + k < 64 ∧
                ((mem (index + (i + r)) >>> (7 - k)) &&& 1) = 1 ∧
                frame ((vx + k) + (vy + (i + r)) * 64) = true := by
              rintro ⟨r, k, h1, h2, h3, h4, h5, h6⟩
              cases r with
              | zero => exact hP0 ⟨k, by omega, by omega, h4, h5, h6⟩
              | succ r =>
                have he : i + (r + 1) = i + 1 + r := by omega
                rw [he] at h2 h5 h6
                have hnot : ¬ ∃ k0, 0 ≤ k0 ∧ k0 < 0 + 8 ∧ vx + k0 < 64 ∧
                    ((mem (index + i) >>> (7 - k0)) &&& 1) = 1 ∧
                    (vx + k) + (vy + (i + 1 + r)) * 64 = (vx + k0) + (vy + i) * 64 := by
                  rintro ⟨k0, hk0a, hk0b, hk0c, hk0d, hk0e⟩
                  omega
                refine hP1 ⟨r, k, by omega, h2, h3, h4, h5, ?_⟩
                rw [colp _, if_neg hnot]
                exact h6
            rw [if_neg hP0, if_neg hPT]

open Classical in
theorem exec_dxyn_spec (s : Emulator) (x y n : Nat)
    (hmem : s.index_register + n ≤ 4096) :
    ∃ s1, s.exec_dxyn x y n = .ok s1 ∧
      (∀ i j, i < n → s.var_registers y % 32 + i < 32 → j < 8 →
          s.var_registers x % 64 + j < 64 →
          s1.frame ((s.var_registers x % 64 + j) + (s.var_registers y % 32 + i) * 64) =
            xor (s.frame ((s.var_registers x % 64 + j) + (s.var_registers y % 32 + i) * 64))
              (((s.memory (s.index_register + i) >>> (7 - j)) &&& 1) == 1)) ∧
      (∀ p, (¬ ∃ i j, i < n ∧ s.var_registers y % 32 + i < 32 ∧ j < 8 ∧
          s.var_registers x % 64 + j < 64 ∧
          ((s.memory (s.index_register + i) >>> (7 - j)) &&& 1) = 1 ∧
          p = (s.var_registers x % 64 + j) + (s.var_registers y % 32 + i) * 64) →
        s1.frame p = s.frame p) ∧
      (s1.var_registers 15 = 1 ↔ ∃ i j, i < n ∧ s.var_registers y % 32 + i < 32 ∧ j < 8 ∧
          s.var_registers x % 64 + j < 64 ∧
          ((s.memory (s.index_register + i) >>> (7 - j)) &&& 1) = 1 ∧
          s.frame ((s.var_registers x % 64 + j) + (s.var_registers y % 32 + i) * 64) = true) ∧
      (s1.var_registers 15 = 1 ∨ s1.var_registers 15 = 0) ∧
      (∀ r, r ≠ 15 → s1.var_registers r = s.var_registers r) ∧
      s1.memory = s.memory ∧ s1.pc = s.pc ∧ s1.index_register = s.index_register := by
  have hvx : s.var_registers x % 64 < 64 := Nat.mod_lt _ (by norm_num)
  have hvy : s.var_registers y % 32 < 32 := Nat.mod_lt _ (by norm_num)
  obtain ⟨frame2, vf2, hrun, hpix, hvf⟩ :=
    drawRows_spec s.memory s.index_register (s.var_registers x % 64)
      (s.var_registers y % 32) hvx n 0 s.frame 0 (by omega) (by omega)
  have hdx : s.exec_dxyn x y n = .ok
      { s with
        should_draw := true
        frame := frame2
        var_registers := updateFn s.var_registers 0xF vf2 } := by
    unfold Emulator.exec_dxyn
    dsimp only
    rw [hrun]
  have hv15 : (updateFn s.var_registers 0xF vf2) 15 = vf2 := updateFn_self _ _ _
  refine ⟨_, hdx, ?_, ?_, ?_, ?_, ?_, rfl, rfl, rfl⟩
  · intro i j hi hrow hj hcol
    show frame2 ((s.var_registers x % 64 + j) + (s.var_registers y % 32 + i) * 64) = _
    rw [hpix _]
    by_cases hbit : (s.memory (s.index_register + i) >>> (7 - j)) &&& 1 = 1
    · have hPT : ∃ r k, r < n ∧ s.var_registers y % 32 + (0 + r) < 32 ∧ k < 8 ∧
          s.var_registers x % 64 + k < 64 ∧
          ((s.memory (s.index_register + (0 + r)) >>> (7 - k)) &&& 1) = 1 ∧
          (s.var_registers x % 64 + j) + (s.var_registers y % 32 + i) * 64 =
            (s.var_registers x % 64 + k) + (s.var_registers y % 32 + (0 + r)) * 64 := by
        refine ⟨i, j, hi, ?_, hj, hcol, ?_, ?_⟩
        · rw [Nat.zero_add]; exact hrow
        · rw [Nat.zero_add]; exact hbit
        · rw [Nat.zero_add]
      rw [if_pos hPT]
      simp [hbit]
    · have hPT : ¬ ∃ r k, r < n ∧ s.var_registers y % 32 + (0 + r) < 32 ∧ k < 8 ∧
          s.var_registers x % 64 + k < 64 ∧
          ((s.memory (s.index_register + (0 + r)) >>> (7 - k)) &&& 1) = 1 ∧
          (s.var_registers x % 64 + j) + (s.var_registers y % 32 + i) * 64 =
            (s.var_registers x % 64 + k) + (s.var_registers y % 32 + (0 + r)) * 64 := by
        rintro ⟨r, k, h1, h2, h3, h4, h5, h6⟩
        have hr : r = i := by omega
        subst hr
        have hk : k = j := by omega
        subst hk
        rw [Nat.zero_add] at h5
        exact hbit h5
      rw [if_neg hPT]
      have hbit2 : s.memory (s.index_register + i) >>> (7 - j) % 2 ≠ 1 := by
        simpa [Nat.and_one_is_mod] using hbit
      have hbeq : (s.memory (s.index_register + i) >>> (7 - j) % 2 == 1) = false := by
        simp [hbit2]
      simp [Nat.and_one_is_mod, hbeq]
  · intro p hout
    show frame2 p = s.frame p
    rw [hpix p]
    rw [if_neg ?_]
    rintro ⟨r, k, h1, h2, h3, h4, h5, h6⟩
    rw [Nat.zero_add] at h2 h5 h6
    exact hout ⟨r, k, h1, h2, h3, h4, h5, h6⟩
  · show (updateFn s.var_registers 0xF vf2) 15 = 1 ↔ _
    rw [hv15, hvf]
    by_cases hc : ∃ r k, r < n ∧ s.var_registers y % 32 + (0 + r) < 32 ∧ k < 8 ∧
        s.var_registers x % 64 + k < 64 ∧
        ((s.memory (s.index_register + (0 + r)) >>> (7 - k)) &&& 1) = 1 ∧
        s.frame ((s.var_registers x % 64 + k) + (s.var_registers y % 32 + (0 + r)) * 64) = true
    · rw [if_pos hc]
      constructor
      · intro _
        obtain ⟨r, k, h1, h2, h3, h4, h5, h6⟩ := hc
        rw [Nat.zero_add] at h2 h5 h6
        exact ⟨r, k, h1, h2, h3, h4, h5, h6⟩
      · intro _
        rfl
    · rw [if_neg hc]
      constructor
      · intro h01
        exact absurd h01 (by norm_num)
      · rintro ⟨i, j, h1, h2, h3, h4, h5, h6⟩
        exfalso
        refine hc ⟨i, j, h1, ?_, h3, h4, ?_, ?_⟩
        · rw [Nat.zero_add]; exact h2
        · rw [Nat.zero_add]; exact h5
        · rw [Nat.zero_add]; exact h6
  · show (updateFn s.var_registers 0xF vf2) 15 = 1 ∨ (updateFn s.var_registers 0xF vf2) 15 = 0
    rw [hv15, hvf]
    split
    · left; rfl
    · right; rfl
  · intro r hr
    show (updateFn s.var_registers 0xF vf2) r = s.var_registers r
    exact updateFn_ne _ _ _ _ hr

/-- C4 (amended): `DXYN` wraps the start coordinates once at entry
(`vx % 64`, `vy % 32`), clips rows at display height 32 and columns at width
64 (no wraparound), XORs set sprite bits into the surviving pixels and leaves
every other pixel untouched, and ends with `VF = 1` iff some lit pixel was
turned off (having been reset to 0 before drawing).  Drawing an identical
sprite twice at the same spot on a cleared screen gives `VF = 0` then
`VF = 1` provided at least one set sprite bit lands on-screen (an all-zero or
fully clipped sprite toggles nothing, so both draws give `VF = 0`). -/
theorem dxyn_clipped_xor_and_collision (s : Emulator) (x y n : Nat)
    (hmem : s.index_register + n ≤ 4096) :
    ∃ s1, s.exec_dxyn x y n = .ok s1 ∧
      (∀ i j, i < n → s.var_registers y % 32 + i < 32 → j < 8 →
          s.var_registers x % 64 + j < 64 →
          s1.frame ((s.var_registers x % 64 + j) + (s.var_registers y % 32 + i) * 64) =
            xor (s.frame ((s.var_registers x % 64 + j) + (s.var_registers y % 32 + i) * 64))
              (((s.memory (s.index_register + i) >>> (7 - j)) &&& 1) == 1)) ∧
      (∀ p, (¬ ∃ i j, i < n ∧ s.var_registers y % 32 + i < 32 ∧ j < 8 ∧
          s.var_registers x % 64 + j < 64 ∧
          ((s.memory (s.index_register + i) >>> (7 - j)) &&& 1) = 1 ∧
          p = (s.var_registers x % 64 + j) + (s.var_registers y % 32 + i) * 64) →
        s1.frame p = s.frame p) ∧
      (s1.var_registers 15 = 1 ↔ ∃ i j, i < n ∧ s.var_registers y % 32 + i < 32 ∧ j < 8 ∧
          s.var_registers x % 64 + j < 64 ∧
          ((s.memory (s.index_register + i) >>> (7 - j)) &&& 1) = 1 ∧
          s.frame ((s.var_registers x % 64 + j) + (s.var_registers y % 32 + i) * 64) = true) ∧
      (∀ r, r ≠ 15 → s1.var_registers r = s.var_registers r) ∧
      s1.memory = s.memory ∧ s1.pc = s.pc ∧ s1.index_register = s.index_register ∧
      (x ≠ 15 → y ≠ 15 → (∀ p, s.frame p = false) →
        (∃ i j, i < n ∧ s.var_registers y % 32 + i < 32 ∧ j < 8 ∧
            s.var_registers x % 64 + j < 64 ∧
            ((s.memory (s.index_register + i) >>> (7 - j)) &&& 1) = 1) →
        s1.var_registers 15 = 0 ∧
        ∃ s2, s1.exec_dxyn x y n = .ok s2 ∧ s2.var_registers 15 = 1 ∧
          ∀ p, s2.frame p = false) := by
  obtain ⟨s1, hd1, hreg1, hout1, hiff1, h01, hoth1, hm1, hp1, hi1⟩ :=
    exec_dxyn_spec s x y n hmem
  refine ⟨s1, hd1, hreg1, hout1, hiff1, hoth1, hm1, hp1, hi1, ?_⟩
  intro hx hy hclear hvis
  have hvf0 : s1.var_registers 15 = 0 := by
    rcases h01 with h1 | h0
    · exfalso
      obtain ⟨i, j, c1, c2, c3, c4, c5, c6⟩ := hiff1.mp h1
      rw [hclear _] at c6
      exact absurd c6 (by simp)
    · exact h0
  refine ⟨hvf0, ?_⟩
  have hvarx : s1.var_registers x = s.var_registers x := hoth1 x hx
  have hvary : s1.var_registers y = s.var_registers y := hoth1 y hy
  have hmem1 : s1.index_register + n ≤ 4096 := by rw [hi1]; exact hmem
  obtain ⟨s2, hd2, hreg2, hout2, hiff2, h012, hoth2, hm2, hp2, hi2⟩ :=
    exec_dxyn_spec s1 x y n hmem1
  rw [hvarx, hvary, hm1, hi1] at hreg2 hout2 hiff2
  refine ⟨s2, hd2, ?_, ?_⟩
  · obtain ⟨i, j, c1, c2, c3, c4, c5⟩ := hvis
    apply hiff2.mpr
    refine ⟨i, j, c1, c2, c3, c4, c5, ?_⟩
    rw [hreg1 i j c1 c2 c3 c4]
    rw [hclear _]
    simp [c5]
  · intro p
    by_cases hpp : ∃ i j, i < n ∧ s.var_registers y % 32 + i < 32 ∧ j < 8 ∧
        s.var_registers x % 64 + j < 64 ∧
        ((s.memory (s.index_register + i) >>> (7 - j)) &&& 1) = 1 ∧
        p = (s.var_registers x % 64 + j) + (s.var_registers y % 32 + i) * 64
    · obtain ⟨i, j, c1, c2, c3, c4, c5, c6⟩ := hpp
      subst c6
      rw [hreg2 i j c1 c2 c3 c4, hreg1 i j c1 c2 c3 c4, hclear _]
      simp [c5]
    · rw [hout2 p hpp, hout1 p hpp, hclear p]

/-- C4 counterexample: drawing the identical all-zero sprite twice at the
same spot on a cleared screen leaves the collision flag at 0 after the
second draw too — no pixel was lit, so none could be turned off — against
the claim's unconditional `VF = 1` after the second draw. -/
theorem dxyn_twice_zero_sprite_counterexample :
    (∀ p, emu0.frame p = false) ∧
    emu0.memory emu0.index_register = 0 ∧
    obsReg 15 (emu0.exec_dxyn 0 1 1) = some 0 ∧
    obsReg 15 ((emu0.exec_dxyn 0 1 1).bind (fun s1 => s1.exec_dxyn 0 1 1)) = some 0 := by
  exact ⟨fun p => rfl, rfl, rfl, rfl⟩

/-- Cleared screen, sprite byte `0xFF` at index `0x300`, start coordinates
`(60, 5)` — the clipping example of the spec. -/
def c4Draw : Emulator :=
  { emu0 with
    index_register := 0x300
    memory := updateFn emu0.memory 0x300 0xFF
    var_registers := updateFn (updateFn (fun _ => 0) 0 60) 1 5 }

/-- C4 witness: the amended draw theorem applied at a concrete state whose
single-row `0xFF` sprite starts at column 60 (clipped after 4 columns). -/
theorem dxyn_clipped_xor_and_collision_witness :
    ∃ s1, c4Draw.exec_dxyn 0 1 1 = .ok s1 ∧
      (∀ i j, i < 1 → c4Draw.var_registers 1 % 32 + i < 32 → j < 8 →
          c4Draw.var_registers 0 % 64 + j < 64 →
          s1.frame ((c4Draw.var_registers 0 % 64 + j) + (c4Draw.var_registers 1 % 32 + i) * 64) =
            xor (c4Draw.frame ((c4Draw.var_registers 0 % 64 + j) +
                (c4Draw.var_registers 1 % 32 + i) * 64))
              (((c4Draw.memory (c4Draw.index_register + i) >>> (7 - j)) &&& 1) == 1)) ∧
      (∀ p, (¬ ∃ i j, i < 1 ∧ c4Draw.var_registers 1 % 32 + i < 32 ∧ j < 8 ∧
          c4Draw.var_registers 0 % 64 + j < 64 ∧
          ((c4Draw.memory (c4Draw.index_register + i) >>> (7 - j)) &&& 1) = 1 ∧
          p = (c4Draw.var_registers 0 % 64 + j) + (c4Draw.var_registers 1 % 32 + i) * 64) →
        s1.frame p = c4Draw.frame p) ∧
      (s1.var_registers 15 = 1 ↔ ∃ i j, i < 1 ∧ c4Draw.var_registers 1 % 32 + i < 32 ∧ j < 8 ∧
          c4Draw.var_registers 0 % 64 + j < 64 ∧
          ((c4Draw.memory (c4Draw.index_register + i) >>> (7 - j)) &&& 1) = 1 ∧
          c4Draw.frame ((c4Draw.var_registers 0 % 64 + j) +
            (c4Draw.var_registers 1 % 32 + i) * 64) = true) ∧
      (∀ r, r ≠ 15 → s1.var_registers r = c4Draw.var_registers r) ∧
      s1.memory = c4Draw.memory ∧ s1.pc = c4Draw.pc ∧
      s1.index_register = c4Draw.index_register ∧
      (0 ≠ 15 → 1 ≠ 15 → (∀ p, c4Draw.frame p = false) →
        (∃ i j, i < 1 ∧ c4Draw.var_registers 1 % 32 + i < 32 ∧ j < 8 ∧
            c4Draw.var_registers 0 % 64 + j < 64 ∧
            ((c4Draw.memory (c4Draw.index_register + i) >>> (7 - j)) &&& 1) = 1) →
        s1.var_registers 15 = 0 ∧
        ∃ s2, s1.exec_dxyn 0 1 1 = .ok s2 ∧ s2.var_registers 15 = 1 ∧
          ∀ p, s2.frame p = false) :=
  dxyn_clipped_xor_and_collision c4Draw 0 1 1 (by decide)
